import Mathlib

/-!
# gomatrix: event codec and room-state projection

A shallow embedding of `event/events.go`, `room.go` and the method
HasSingleStageFlow of `response/responses.go`.

* JSON documents are modelled after parsing (`JSON`); a byte slice is either a
  JSON document or not one (`Bytes`).
* The structs of `events.go` are given as type descriptors (`GoType`) carrying
  their field names and `json` tags; `json.Unmarshal` and `json.Marshal` are
  modelled once, by reflection on these descriptors, the way `encoding/json`
  works.  `int` is the 64-bit `int`.
* Methods with a pointer receiver return the updated receiver.
* `log.Fatal` ends the process: `Outcome.fatal`.
* A computation that re-enters itself without end runs out of `fuel` for every
  amount of fuel.

Limits of the model: a `float64` is identified with the number literal it was
parsed from (only the range check of `strconv.ParseFloat` is modelled, not the
rounding); the nesting limit of the JSON scanner is not modelled; Go strings
are Unicode strings; a map is a list holding each key once, so two maps are
compared up to the order of their entries; the elements of a slice beyond its
length (the rest of its backing array, which a later array of the same
document would be decoded over) are not kept, a slice grows over zero values;
`Room` holds the inner maps of a room by value and `HeapRoom` by reference,
the two agree on the rooms that store no inner map under two keys;
`html.UnescapeString` is a parameter.
-/

set_option exponentiation.threshold 2000

namespace Gomatrix

/-! ## JSON documents -/

/-- A parsed JSON document. A number literal written with digits only is
`int n`; a literal with a fraction or an exponent is `dec m e`, of value
`m * 10 ^ e`. Object members are kept in document order, duplicates included. -/
inductive JSON where
  | null
  | bool (b : Bool)
  | int (n : Int)
  | dec (m e : Int)
  | str (s : String)
  | arr (xs : List JSON)
  | obj (kvs : List (String × JSON))

/-- A byte slice handed to the decoder: `none` when the bytes are not a JSON
document (the empty slice included). -/
abbrev Bytes := Option JSON

/-- The errors the decoder returns. -/
inductive Error where
  /-- The `*json.SyntaxError` of `encoding/json` ("unexpected end of JSON input" included). -/
  | invalidJSON
  /-- The `*json.UnmarshalTypeError` of `encoding/json`. -/
  | unmarshalTypeError (value : String) (goType : String)
  /-- The error of `fmt.Errorf("unknown msgtype: %v", msgType)`. -/
  | unknownMsgtype (msgType : String)
  deriving DecidableEq, Repr

/-- First error wins, as in `decodeState.saveError`. -/
def firstError : Option Error → Option Error → Option Error
  | some e, _ => some e
  | none, e => e

/-! ## Go types and values -/

/-- A struct field: its Go name, its JSON key and the `omitempty` option of its tag. -/
structure Tag where
  name : String
  key : String
  omitempty : Bool
  deriving DecidableEq, Repr

/-- The Go types that occur in `events.go`. A struct carries its name and its
fields in declaration order; the fields of an embedded struct are promoted. -/
inductive GoType where
  | string
  | bool
  | int
  | int64
  | uint
  | rawMessage
  | iface
  | ptr (elem : GoType)
  | slice (elem : GoType)
  | map (elem : GoType)
  | struct (name : String) (fields : List (Tag × GoType))

/-- Go values. `nil` is the nil pointer, slice, map or interface. `float m e`
is the `float64` parsed from a literal of value `m * 10 ^ e` (rounding to 53
bits is not modelled). Maps hold each key once. Values held by an
`interface{}` after decoding are `nil`, `bool`, `float`, `str`, `slice`, `map`. -/
inductive GoVal where
  | str (s : String)
  | bool (b : Bool)
  | int (n : Int)
  | float (m e : Int)
  | raw (j : Option JSON)
  | nil
  | ptr (v : GoVal)
  | slice (xs : List GoVal)
  | map (kvs : List (String × GoVal))
  | struct (fields : List (String × GoVal))

/-- The name `encoding/json` reports for a type. -/
def GoType.describe : GoType → String
  | .string => "string"
  | .bool => "bool"
  | .int => "int"
  | .int64 => "int64"
  | .uint => "uint"
  | .rawMessage => "json.RawMessage"
  | .iface => "interface {}"
  | .ptr t => "*" ++ t.describe
  | .slice t => "[]" ++ t.describe
  | .map t => "map[string]" ++ t.describe
  | .struct name _ => name

mutual
/-- The zero value of a type. -/
def zeroValue : GoType → GoVal
  | .string => .str ""
  | .bool => .bool false
  | .int => .int 0
  | .int64 => .int 0
  | .uint => .int 0
  | .rawMessage => .raw none
  | .iface => .nil
  | .ptr _ => .nil
  | .slice _ => .nil
  | .map _ => .nil
  | .struct _ fields => .struct (zeroFields fields)
/-- The zero values of the fields of a struct. -/
def zeroFields : List (Tag × GoType) → List (String × GoVal)
  | [] => []
  | (tag, t) :: rest => (tag.name, zeroValue t) :: zeroFields rest
end

/-- Lookup in a Go map (or in the fields of a struct value). -/
def mapLookup {α : Type} (k : String) : List (String × α) → Option α
  | [] => none
  | (k', v) :: rest => if k' = k then some v else mapLookup k rest

/-- Assignment `m[k] = v` in a Go map: replaces the entry of `k` or adds one. -/
def mapAssign {α : Type} (k : String) (v : α) : List (String × α) → List (String × α)
  | [] => [(k, v)]
  | (k', v') :: rest => if k' = k then (k, v) :: rest else (k', v') :: mapAssign k v rest

/-- Field selection `x.f`. -/
def GoVal.field (x : GoVal) (f : String) : GoVal :=
  match x with
  | .struct fields => (mapLookup f fields).getD .nil
  | _ => .nil

/-- Field assignment `x.f = v`. -/
def GoVal.setField (x : GoVal) (f : String) (v : GoVal) : GoVal :=
  match x with
  | .struct fields => .struct (mapAssign f v fields)
  | other => other

/-- The string held by a string value. -/
def GoVal.getStr : GoVal → String
  | .str s => s
  | _ => ""

/-- The integer held by an integer value. -/
def GoVal.getInt : GoVal → Int
  | .int n => n
  | _ => 0

/-- A `*string` as an optional string: `none` for the nil pointer. -/
def GoVal.getStrPtr : GoVal → Option String
  | .ptr (.str s) => some s
  | _ => none

/-- The document held by a `json.RawMessage`; `none` for the nil slice. -/
def GoVal.getRaw : GoVal → Bytes
  | .raw j => j
  | _ => none

/-- The elements of a slice value; none for the nil slice. -/
def GoVal.elems : GoVal → List GoVal
  | .slice xs => xs
  | _ => []

/-- The entries of a map value; none for the nil map. -/
def GoVal.entries : GoVal → List (String × GoVal)
  | .map kvs => kvs
  | _ => []

/-! ## Decoding: encoding/json.Unmarshal -/

/-- Case folding of one rune as `encoding/json` folds field names: ASCII letters
to upper case, the long s to S and the Kelvin sign to K. Other runes are left
alone, which decides every comparison with an ASCII field name as Go does. -/
def foldRune (c : Char) : Char :=
  if c = Char.ofNat 0x17F then 'S'
  else if c = Char.ofNat 0x212A then 'K'
  else c.toUpper

/-- The folded name of a JSON key (foldName in encoding/json). -/
def foldName (s : String) : String := String.mk (s.data.map foldRune)

/-- The struct field a JSON key is stored in: the field whose key is exactly
the JSON key, else the first field whose key equals it under case folding. -/
def findField (fields : List (Tag × GoType)) (key : String) : Option (Tag × GoType) :=
  match fields.find? (fun f => f.1.key == key) with
  | some f => some f
  | none => fields.find? (fun f => foldName f.1.key == foldName key)

/-- The least magnitude that `strconv.ParseFloat(s, 64)` rejects with
`ErrRange`: half an ulp above the largest `float64`. -/
def float64Limit : Nat := 2 ^ 1024 - 2 ^ 970

/-- Whether the literal of value `m * 10 ^ e` is out of the range of `float64`. -/
def float64Overflow (m e : Int) : Bool :=
  if 0 ≤ e then Nat.ble float64Limit (m.natAbs * 10 ^ e.toNat)
  else Nat.ble (float64Limit * 10 ^ (-e).toNat) m.natAbs

/-- The conversion convertNumber of `encoding/json`: a number literal stored
in an `interface{}` becomes a `float64`, or fails when out of range. -/
def convertNumber (m e : Int) : GoVal × Option Error :=
  if float64Overflow m e then (.nil, some (.unmarshalTypeError "number" "float64"))
  else (.float m e, none)

mutual
/-- Decoding of a document into an `interface{}` (valueInterface in
`encoding/json`): objects become `map[string]interface{}`, arrays
`[]interface{}`, numbers `float64`. -/
def toAny : JSON → GoVal × Option Error
  | .null => (.nil, none)
  | .bool b => (.bool b, none)
  | .int n => convertNumber n 0
  | .dec m e => convertNumber m e
  | .str s => (.str s, none)
  | .arr xs => let r := toAnyList xs; (.slice r.1, r.2)
  | .obj kvs => let r := toAnyMap [] kvs; (.map r.1, r.2)
/-- Decoding of the elements of an array into a `[]interface{}`. -/
def toAnyList : List JSON → List GoVal × Option Error
  | [] => ([], none)
  | x :: xs =>
    let r := toAny x
    let rs := toAnyList xs
    (r.1 :: rs.1, firstError r.2 rs.2)
/-- Decoding of the members of an object into the `map[string]interface{}`
that holds `acc` so far: each member is assigned in turn, so a later member
replaces an earlier one of the same key. -/
def toAnyMap (acc : List (String × GoVal)) : List (String × JSON) → List (String × GoVal) × Option Error
  | [] => (acc, none)
  | (k, v) :: rest =>
    let r := toAny v
    let rs := toAnyMap (mapAssign k r.1 acc) rest
    (rs.1, firstError r.2 rs.2)
end

/-- Follows the pointers of type `t` from `x` to the value they lead to,
allocating a zero value where a pointer is nil (indirect in `encoding/json`). -/
def GoVal.indirect : GoType → GoVal → GoVal
  | .ptr t, .ptr v => GoVal.indirect t v
  | .ptr t, _ => GoVal.indirect t (zeroValue t)
  | _, v => v

/-- The type the pointers of `t` lead to. -/
def GoType.indirect : GoType → GoType
  | .ptr t => t.indirect
  | t => t

/-- Puts a decoded value back behind the pointers of type `t`. -/
def GoVal.rewrap : GoType → GoVal → GoVal
  | .ptr t, v => .ptr (GoVal.rewrap t v)
  | _, v => v

/-- The error for a JSON value that does not fit the Go type. -/
def typeError (value : String) (t : GoType) : Option Error :=
  some (.unmarshalTypeError value t.describe)

/-- Stores a boolean, number or string literal in a value `cur` of the
non-pointer type `t` (literalStore in `encoding/json`). A literal that does not
fit leaves `cur` as it is and reports a type error. -/
def storeLiteral (t : GoType) (cur : GoVal) : JSON → GoVal × Option Error
  | .bool b =>
    match t with
    | .bool => (.bool b, none)
    | .iface => (.bool b, none)
    | .rawMessage => (.raw (some (.bool b)), none)
    | _ => (cur, typeError "bool" t)
  | .str s =>
    match t with
    | .string => (.str s, none)
    | .iface => (.str s, none)
    | .rawMessage => (.raw (some (.str s)), none)
    | _ => (cur, typeError "string" t)
  | .int n =>
    match t with
    | .int => if -2 ^ 63 ≤ n ∧ n < 2 ^ 63 then (.int n, none) else (cur, typeError "number" t)
    | .int64 => if -2 ^ 63 ≤ n ∧ n < 2 ^ 63 then (.int n, none) else (cur, typeError "number" t)
    | .uint => if 0 ≤ n ∧ n < 2 ^ 64 then (.int n, none) else (cur, typeError "number" t)
    | .iface => convertNumber n 0
    | .rawMessage => (.raw (some (.int n)), none)
    | _ => (cur, typeError "number" t)
  | .dec m e =>
    match t with
    | .iface => convertNumber m e
    | .rawMessage => (.raw (some (.dec m e)), none)
    | _ => (cur, typeError "number" t)
  | _ => (cur, none)

mutual
/-- Decoding of a document into a value `cur` of type `t` (the method value of
decodeState in `encoding/json`). A type error is recorded and decoding goes on;
the first error is the one reported. -/
def decode (t : GoType) (cur : GoVal) : JSON → GoVal × Option Error
  | .null =>
    match t with
    | .ptr _ => (.nil, none)
    | .slice _ => (.nil, none)
    | .map _ => (.nil, none)
    | .iface => (.nil, none)
    | .rawMessage => (.raw (some .null), none)
    | _ => (cur, none)
  | .arr xs =>
    match t.indirect with
    | .slice elem =>
      let r := decodeElems elem (GoVal.indirect t cur).elems xs
      (GoVal.rewrap t (.slice r.1), r.2)
    | .iface =>
      let r := toAnyList xs
      (GoVal.rewrap t (.slice r.1), r.2)
    | .rawMessage => (GoVal.rewrap t (.raw (some (.arr xs))), none)
    | bt => (GoVal.rewrap t (GoVal.indirect t cur), typeError "array" bt)
  | .obj kvs =>
    match t.indirect with
    | .struct _ fields =>
      let r := decodeFields fields (GoVal.indirect t cur) kvs
      (GoVal.rewrap t r.1, r.2)
    | .map elem =>
      let r := decodeMap elem (GoVal.indirect t cur).entries kvs
      (GoVal.rewrap t (.map r.1), r.2)
    | .iface =>
      let r := toAnyMap [] kvs
      (GoVal.rewrap t (.map r.1), r.2)
    | .rawMessage => (GoVal.rewrap t (.raw (some (.obj kvs))), none)
    | bt => (GoVal.rewrap t (GoVal.indirect t cur), typeError "object" bt)
  | .bool b =>
    let r := storeLiteral t.indirect (GoVal.indirect t cur) (.bool b)
    (GoVal.rewrap t r.1, r.2)
  | .int n =>
    let r := storeLiteral t.indirect (GoVal.indirect t cur) (.int n)
    (GoVal.rewrap t r.1, r.2)
  | .dec m e =>
    let r := storeLiteral t.indirect (GoVal.indirect t cur) (.dec m e)
    (GoVal.rewrap t r.1, r.2)
  | .str s =>
    let r := storeLiteral t.indirect (GoVal.indirect t cur) (.str s)
    (GoVal.rewrap t r.1, r.2)
/-- Decoding of the elements of an array into a slice: element `i` is decoded
over the element the slice already has at `i`, or over a zero value. In Go a
slice that an earlier array of the same document left shorter than its backing
array grows over what the backing array still holds; the capacity of a slice
is not modelled, and the slice grows over zero values here. -/
def decodeElems (elem : GoType) (cur : List GoVal) : List JSON → List GoVal × Option Error
  | [] => ([], none)
  | x :: xs =>
    let r := decode elem (cur.head?.getD (zeroValue elem)) x
    let rs := decodeElems elem cur.tail xs
    (r.1 :: rs.1, firstError r.2 rs.2)
/-- Decoding of the members of an object into a map: each member is decoded
into a zero value and assigned under its key. -/
def decodeMap (elem : GoType) (acc : List (String × GoVal)) :
    List (String × JSON) → List (String × GoVal) × Option Error
  | [] => (acc, none)
  | (k, v) :: rest =>
    let r := decode elem (zeroValue elem) v
    let rs := decodeMap elem (mapAssign k r.1 acc) rest
    (rs.1, firstError r.2 rs.2)
/-- Decoding of the members of an object into a struct: each member whose key
names a field is decoded over that field; other members are skipped. -/
def decodeFields (fields : List (Tag × GoType)) (cur : GoVal) :
    List (String × JSON) → GoVal × Option Error
  | [] => (cur, none)
  | (k, v) :: rest =>
    match findField fields k with
    | none => decodeFields fields cur rest
    | some f =>
      let r := decode f.2 (cur.field f.1.name) v
      let rs := decodeFields fields (cur.setField f.1.name r.1) rest
      (rs.1, firstError r.2 rs.2)
end

/-- The call `json.Unmarshal(data, &x)` for `x` of type `t`: the updated `x`
and the error, if any. -/
def json.Unmarshal (data : Bytes) (t : GoType) (x : GoVal) : GoVal × Option Error :=
  match data with
  | none => (x, some .invalidJSON)
  | some j => decode t x j

/-! ## event/events.go: tags and content shapes -/

def eventRoomAliases : String := "m.room.aliases"
def eventRoomCanonicalAlias : String := "m.room.canonical_alias"
def eventRoomCreate : String := "m.room.create"
def eventRoomJoinRules : String := "m.room.join_rules"
def eventRoomMember : String := "m.room.member"
def eventRoomPowerLevels : String := "m.room.power_levels"
def eventRoomRedaction : String := "m.room.redaction"
def eventRoomMessage : String := "m.room.message"
def eventRoomMessageFeedback : String := "m.room.message.feedback"
def eventRoomName : String := "m.room.name"
def eventRoomTopic : String := "m.room.topic"
def eventRoomAvatar : String := "m.room.avatar"
def eventRoomPinnedEvents : String := "m.room.pinned_events"
def eventCallInvite : String := "m.call.invite"
def eventCallCandidates : String := "m.call.candidates"
def eventCallAnswer : String := "m.call.answer"
def eventCallHangup : String := "m.call.hangup"
def eventTyping : String := "m.typing"
def eventReceipt : String := "m.receipt"
def eventPresence : String := "m.presence"
def eventRoomHistoryVisibility : String := "m.room.history_visibility"
def eventRoomThirdPartyInvite : String := "m.room.third_party_invite"
def eventRoomGuestAccess : String := "m.room.guest_access"
def eventDirect : String := "m.direct"
def messageText : String := "m.text"
def messageEmote : String := "m.emote"
def messageNotice : String := "m.notice"
def messageImage : String := "m.image"
def messageVideo : String := "m.video"
def messageFile : String := "m.file"
def messageLocation : String := "m.location"
def messageAudio : String := "m.audio"

def formatOrgMatrixCustomHtml : String := "org.matrix.custom.html"

/-- A struct field with the tag `json:"key"`. -/
def fld (name key : String) (t : GoType) : Tag × GoType := (⟨name, key, false⟩, t)

/-- A struct field with the tag `json:"key,omitempty"`. -/
def fldOmitempty (name key : String) (t : GoType) : Tag × GoType := (⟨name, key, true⟩, t)

/-- The struct jsonEvent: the envelope with its content left undecoded. -/
def jsonEvent : GoType := .struct "jsonEvent" [
  fldOmitempty "StateKey" "state_key" (.ptr .string),
  fld "Sender" "sender" .string,
  fld "Type" "type" .string,
  fld "Timestamp" "origin_server_ts" .int64,
  fld "ID" "event_id" .string,
  fld "RoomID" "room_id" .string,
  fld "Content" "content" .rawMessage]

def RoomAliases : GoType := .struct "RoomAliases" [fld "Aliases" "aliases" (.slice .string)]

def RoomCanonicalAlias : GoType := .struct "RoomCanonicalAlias" [fld "Alias" "alias" .string]

def RoomCreate : GoType := .struct "RoomCreate" [
  fld "Creator" "creator" .string,
  fldOmitempty "Federate" "m.federate" .bool]

def RoomJoinRules : GoType := .struct "RoomJoinRules" [fld "JoinRule" "join_rule" .string]

def RoomMember : GoType := .struct "RoomMember" [
  fldOmitempty "AvatarURL" "avatar_url" .string,
  fldOmitempty "Displayname" "displayname" .string,
  fld "Membership" "membership" .string,
  fld "IsDirect" "is_direct" .string,
  fld "ThirdPartyInvite" "third_party_invite" .bool]

def RoomPowerLevels : GoType := .struct "RoomPowerLevels" [
  fldOmitempty "Ban" "ban" .int,
  fldOmitempty "Events" "events" (.map .int),
  fldOmitempty "EventsDefault" "events_default" .int,
  fldOmitempty "Invite" "invite" .int,
  fldOmitempty "Kick" "kick" .int,
  fldOmitempty "Redact" "redact" .int,
  fldOmitempty "StateDefault" "state_default" .int,
  fldOmitempty "Users" "users" (.map .int),
  fldOmitempty "UsersDefault" "users_default" .int]

def RoomRedaction : GoType := .struct "RoomRedaction" [fld "Reason" "reason" .string]

def RoomMessageFeedback : GoType := .struct "RoomMessageFeedback" [
  fld "TargetEventId" "target_event_id" .string,
  fld "Type" "type" .string]

def RoomName : GoType := .struct "RoomName" [fld "Name" "name" .string]

def RoomTopic : GoType := .struct "RoomTopic" [fld "Topic" "topic" .string]

def ImageInfo : GoType := .struct "ImageInfo" [
  fldOmitempty "Height" "h" .uint,
  fldOmitempty "Width" "w" .uint,
  fldOmitempty "Mimetype" "mimetype" .string,
  fldOmitempty "Size" "size" .uint]

def RoomAvatar : GoType := .struct "RoomAvatar" [
  fld "Info" "info" ImageInfo,
  fld "URL" "url" .string]

def RoomPinnedEvents : GoType := .struct "RoomPinnedEvents" [fld "Pinned" "pinned" (.slice .string)]

def RoomHistoryVisibility : GoType :=
  .struct "RoomHistoryVisibility" [fld "HistoryVisibility" "history_visibility" .string]

def RoomThirdPartyInvite : GoType := .struct "RoomThirdPartyInvite" [
  fld "Displayname" "display_name" .string,
  fld "KeyValidityURL" "key_validity_url" .string,
  fld "PublicKey" "public_key" .string,
  fldOmitempty "PublicKeys" "public_keys" (.slice (.struct "" [
    fldOmitempty "KeyValidityURL" "key_validity_url" .string,
    fld "PublicKey" "public_key" .string]))]

def RoomGuestAccess : GoType := .struct "RoomGuestAccess" [fld "GuestAccess" "guest_access" .string]

def CallInvite : GoType := .struct "CallInvite" [
  fld "CallID" "call_id" .string,
  fld "Offer" "offer" (.struct "" [fld "Type" "type" .string, fld "SDP" "sdp" .string]),
  fld "Version" "version" .int,
  fld "Lifetime" "lifetime" .int]

def CallCandidates : GoType := .struct "CallCandidates" [
  fld "CallID" "call_id" .string,
  fld "Candidates" "candidates" (.slice (.struct "" [
    fld "SdpMid" "sdpMid" .string,
    fld "SdpMLineIndex" "sdpMLineIndex" .int,
    fld "Candidate" "candidate" .string])),
  fld "Version" "version" .int]

def CallAnswer : GoType := .struct "CallAnswer" [
  fld "CallID" "call_id" .string,
  fld "Answer" "answer" (.struct "" [fld "Type" "type" .string, fld "Sdp" "sdp" .string]),
  fld "Version" "version" .int]

def CallHangup : GoType := .struct "CallHangup" [
  fld "CallID" "call_id" .string,
  fld "Version" "version" .int]

def Typing : GoType := .struct "Typing" [fld "UserIDs" "user_ids" (.slice .string)]

def Receipt : GoType :=
  .map (.struct "" [fld "MRead" "m.read" (.map (.struct "" [fld "Ts" "ts" .int]))])

def Presence : GoType := .struct "Presence" [
  fld "AvatarURL" "avatar_url" .string,
  fld "Displayname" "displayname" .string,
  fld "LastActiveAgo" "last_active_ago" .int,
  fld "Presence" "presence" .string,
  fld "CurrentlyActive" "currently_active" .bool,
  fld "UserID" "user_id" .string]

def TextMessage : GoType := .struct "TextMessage" [
  fld "Body" "body" .string,
  fld "MsgType" "msgtype" .string,
  fld "Format" "format" .string,
  fld "FormattedBody" "formatted_body" .string]

/-- The struct EmoteMessage embeds TextMessage: it has the promoted fields. -/
def EmoteMessage : GoType := .struct "EmoteMessage" [
  fld "Body" "body" .string,
  fld "MsgType" "msgtype" .string,
  fld "Format" "format" .string,
  fld "FormattedBody" "formatted_body" .string]

def NoticeMessage : GoType := .struct "NoticeMessage" [
  fld "Body" "body" .string,
  fld "MsgType" "msgtype" .string]

def VideoInfo : GoType := .struct "VideoInfo" [
  fldOmitempty "Mimetype" "mimetype" .string,
  fld "ThumbnailInfo" "thumbnail_info" ImageInfo,
  fldOmitempty "ThumbnailURL" "thumbnail_url" .string,
  fldOmitempty "Height" "h" .uint,
  fldOmitempty "Width" "w" .uint,
  fldOmitempty "Duration" "duration" .uint,
  fldOmitempty "Size" "size" .uint]

def VideoMessage : GoType := .struct "VideoMessage" [
  fld "Body" "body" .string,
  fld "MsgType" "msgtype" .string,
  fld "URL" "url" .string,
  fld "Info" "info" VideoInfo]

def ImageMessage : GoType := .struct "ImageMessage" [
  fld "Body" "body" .string,
  fld "MsgType" "msgtype" .string,
  fld "URL" "url" .string,
  fld "Info" "info" ImageInfo]

def FileInfo : GoType := .struct "FileInfo" [
  fldOmitempty "Mimetype" "mimetype" .string,
  fld "Size" "size" .int,
  fld "ThumbnailURL" "thumbnail_url" .string,
  fld "ThumbnailInfo" "thumbnail_info" ImageInfo]

def FileMessage : GoType := .struct "FileMessage" [
  fld "Body" "body" .string,
  fld "MsgType" "msgtype" .string,
  fld "Filename" "filename" .string,
  fld "Info" "info" FileInfo,
  fld "URL" "url" .string]

def LocationInfo : GoType := .struct "LocationInfo" [
  fld "ThumbnailURL" "thumbnail_url" .string,
  fld "ThumbnailInfo" "thumbnail_info" ImageInfo]

def LocationMessage : GoType := .struct "LocationMessage" [
  fld "Body" "body" .string,
  fld "MsgType" "msgtype" .string,
  fld "GeoURI" "geo_uri" .string,
  fld "Info" "location_info" LocationInfo]

def AudioInfo : GoType := .struct "AudioInfo" [
  fld "Duration" "duration" .int,
  fld "Mimetype" "mimetype" .string,
  fld "Size" "size" .int]

def AudioMessage : GoType := .struct "AudioMessage" [
  fld "Body" "body" .string,
  fld "MsgType" "msgtype" .string,
  fld "Info" "audio_info" AudioInfo,
  fld "URL" "url" .string]

/-- The type `map[string]interface{}`. -/
def mapStringInterface : GoType := .map .iface

/-! ## event/events.go: Event and its decoder -/

/-- A non-nil value of type `interface{}`: its dynamic type and the value. A
pointer `&T{...}` has the type `.ptr T` and the value `.ptr v`. -/
structure Dyn where
  type : GoType
  val : GoVal

/-- The struct Event. `StateKey` is the `*string` (none for nil), `Content` the
`interface{}` (none for nil); `Type_` is the field `Type`. -/
structure Event where
  StateKey : Option String
  Sender : String
  Type_ : String
  Timestamp : Int
  ID : String
  RoomID : String
  Content : Option Dyn
  Redacts : String

/-- The zero value `Event{}`. -/
def Event.zero : Event :=
  { StateKey := none, Sender := "", Type_ := "", Timestamp := 0, ID := "", RoomID := "",
    Content := none, Redacts := "" }

/-- How a call of `(*Event).UnmarshalJSON` ends: it returns an error or nil, or
`log.Fatal` ends the process. In both cases `e` is the receiver as the call
left it. -/
inductive Outcome where
  | returned (e : Event) (err : Option Error)
  | fatal (e : Event) (err : Error)

/-- The receiver as the call left it. -/
def Outcome.event : Outcome → Event
  | .returned e _ => e
  | .fatal e _ => e

/-- The error the call returned to its caller, if it returned one. -/
def Outcome.error : Outcome → Option Error
  | .returned _ err => err
  | .fatal _ _ => none

/-- Whether the call returned nil. -/
def Outcome.succeeded : Outcome → Bool
  | .returned _ none => true
  | _ => false

/-- Whether the call ended the process. -/
def Outcome.isFatal : Outcome → Bool
  | .fatal _ _ => true
  | _ => false

/-- One arm of the switch in UnmarshalJSON, for `x` of type `t` starting as `x0`
(the zero struct `T{}`, or the empty map for `Receipt{}` and `make(...)`):
`if err := json.Unmarshal(je.Content, &x); err != nil { return err }; e.Content = x`. -/
def decodeContent (e : Event) (content : Bytes) (t : GoType) (x0 : GoVal) : Outcome :=
  let r := json.Unmarshal content t x0
  match r.2 with
  | some err => .returned e (some err)
  | none => .returned { e with Content := some ⟨t, r.1⟩ } none

/-- The inner switch of UnmarshalJSON on the msgtype of a message. -/
def decodeMessage (e : Event) (content : Bytes) (msgType : String) : Outcome :=
  if msgType = "m.text" then decodeContent e content TextMessage (zeroValue TextMessage)
  else if msgType = "m.emote" then decodeContent e content EmoteMessage (zeroValue EmoteMessage)
  else if msgType = "m.notice" then decodeContent e content NoticeMessage (zeroValue NoticeMessage)
  else if msgType = "m.image" then decodeContent e content NoticeMessage (zeroValue NoticeMessage)
  else if msgType = "m.file" then decodeContent e content FileMessage (zeroValue FileMessage)
  else if msgType = "m.location" then
    decodeContent e content LocationMessage (zeroValue LocationMessage)
  else if msgType = "m.video" then decodeContent e content VideoMessage (zeroValue VideoMessage)
  else if msgType = "m.audio" then decodeContent e content AudioMessage (zeroValue AudioMessage)
  else .returned e (some (.unknownMsgtype msgType))

/-- The method `(e *Event) UnmarshalJSON(data []byte) error`. -/
def Event.UnmarshalJSON (e : Event) (data : Bytes) : Outcome :=
  let r := json.Unmarshal data jsonEvent (zeroValue jsonEvent)
  match r.2 with
  | some err => .returned e (some err)
  | none =>
    let je := r.1
    let e : Event :=
      { e with
        StateKey := (je.field "StateKey").getStrPtr
        Sender := (je.field "Sender").getStr
        Type_ := (je.field "Type").getStr
        Timestamp := (je.field "Timestamp").getInt
        ID := (je.field "ID").getStr
        RoomID := (je.field "RoomID").getStr }
    let jeType := (je.field "Type").getStr
    let content := (je.field "Content").getRaw
    if jeType = eventRoomAliases then decodeContent e content RoomAliases (zeroValue RoomAliases)
    else if jeType = eventRoomCanonicalAlias then
      decodeContent e content RoomCanonicalAlias (zeroValue RoomCanonicalAlias)
    else if jeType = eventRoomCreate then decodeContent e content RoomCreate (zeroValue RoomCreate)
    else if jeType = eventRoomJoinRules then
      decodeContent e content RoomJoinRules (zeroValue RoomJoinRules)
    else if jeType = eventRoomMember then decodeContent e content RoomMember (zeroValue RoomMember)
    else if jeType = eventRoomPowerLevels then
      decodeContent e content RoomPowerLevels (zeroValue RoomPowerLevels)
    else if jeType = eventRoomRedaction then
      decodeContent e content RoomRedaction (zeroValue RoomRedaction)
    else if jeType = eventRoomMessage then
      let m := json.Unmarshal content mapStringInterface (.map [])
      match m.2 with
      | some err => .fatal e err
      | none =>
        match mapLookup "msgtype" m.1.entries with
        | some (.str msgType) => decodeMessage e content msgType
        | _ => .returned e none
    else if jeType = eventRoomMessageFeedback then
      decodeContent e content RoomMessageFeedback (zeroValue RoomMessageFeedback)
    else if jeType = eventRoomName then decodeContent e content RoomName (zeroValue RoomName)
    else if jeType = eventRoomTopic then decodeContent e content RoomTopic (zeroValue RoomTopic)
    else if jeType = eventRoomAvatar then decodeContent e content RoomAvatar (zeroValue RoomAvatar)
    else if jeType = eventRoomPinnedEvents then
      decodeContent e content RoomPinnedEvents (zeroValue RoomPinnedEvents)
    else if jeType = eventCallInvite then decodeContent e content CallInvite (zeroValue CallInvite)
    else if jeType = eventCallCandidates then
      decodeContent e content CallCandidates (zeroValue CallCandidates)
    else if jeType = eventCallAnswer then decodeContent e content CallAnswer (zeroValue CallAnswer)
    else if jeType = eventCallHangup then decodeContent e content CallHangup (zeroValue CallHangup)
    else if jeType = eventTyping then decodeContent e content Typing (zeroValue Typing)
    else if jeType = eventReceipt then decodeContent e content Receipt (.map [])
    else if jeType = eventPresence then decodeContent e content Presence (zeroValue Presence)
    else if jeType = eventRoomHistoryVisibility then
      decodeContent e content RoomHistoryVisibility (zeroValue RoomHistoryVisibility)
    else if jeType = eventRoomThirdPartyInvite then
      decodeContent e content RoomThirdPartyInvite (zeroValue RoomThirdPartyInvite)
    else if jeType = eventRoomGuestAccess then
      decodeContent e content RoomAliases (zeroValue RoomAliases)
    else if jeType = eventDirect then decodeContent e content RoomAliases (zeroValue RoomAliases)
    else decodeContent e content mapStringInterface (.map [])

/-! ## Encoding: encoding/json.Marshal -/

/-- Whether a field tagged omitempty is left out (isEmptyValue in
`encoding/json`): false, 0, a nil pointer or interface, an empty slice, map or
string. A struct is never empty. -/
def isEmptyValue : GoVal → Bool
  | .str s => s.isEmpty
  | .bool b => !b
  | .int n => n == 0
  | .float m _ => m == 0
  | .raw j => j.isNone
  | .nil => true
  | .ptr _ => false
  | .slice xs => xs.isEmpty
  | .map kvs => kvs.isEmpty
  | .struct _ => false

/-- The element type of a pointer, slice or map type; for an `interface{}` the
elements are again held in an `interface{}`. -/
def GoType.elem : GoType → GoType
  | .ptr t => t
  | .slice t => t
  | .map t => t
  | _ => .iface

/-- The fields of a struct type. -/
def GoType.fields : GoType → List (Tag × GoType)
  | .struct _ fields => fields
  | _ => []

/-- The field of the given Go name. -/
def findTag (fields : List (Tag × GoType)) (name : String) : Option (Tag × GoType) :=
  fields.find? (fun f => f.1.name == name)

/-- The number literal written for a `float64`: digits only when the value is
an integer below `1e21`, else a literal with a fraction or an exponent. -/
def encodeFloat (m e : Int) : JSON :=
  if 0 ≤ e then
    if m.natAbs * 10 ^ e.toNat < 10 ^ 21 then .int (m * 10 ^ e.toNat) else .dec m e
  else if m % 10 ^ (-e).toNat = 0 ∧ (m / 10 ^ (-e).toNat).natAbs < 10 ^ 21 then
    .int (m / 10 ^ (-e).toNat)
  else .dec m e

/-- Puts one member in its place among members sorted by key. -/
def insertByKey (kv : String × JSON) : List (String × JSON) → List (String × JSON)
  | [] => [kv]
  | x :: xs => if kv.1 < x.1 then kv :: x :: xs else x :: insertByKey kv xs

/-- The members sorted by key, as `encoding/json` writes a map. -/
def sortByKey : List (String × JSON) → List (String × JSON)
  | [] => []
  | x :: xs => insertByKey x (sortByKey xs)

mutual
/-- The document `encoding/json` writes for a value of type `t` that has no
MarshalJSON method of its own. -/
def encode (t : GoType) : GoVal → JSON
  | .str s => .str s
  | .bool b => .bool b
  | .int n => .int n
  | .float m e => encodeFloat m e
  | .raw j => j.getD .null
  | .nil => .null
  | .ptr v => encode t.elem v
  | .slice xs => .arr (encodeElems t.elem xs)
  | .map kvs => .obj (sortByKey (encodeEntries t.elem kvs))
  | .struct vals => .obj (encodeFields t.fields vals)
/-- The elements of a slice, encoded. -/
def encodeElems (t : GoType) : List GoVal → List JSON
  | [] => []
  | x :: xs => encode t x :: encodeElems t xs
/-- The entries of a map, encoded. -/
def encodeEntries (t : GoType) : List (String × GoVal) → List (String × JSON)
  | [] => []
  | (k, v) :: rest => (k, encode t v) :: encodeEntries t rest
/-- The fields of a struct, encoded under their JSON keys; an empty field
tagged omitempty is left out. -/
def encodeFields (fields : List (Tag × GoType)) : List (String × GoVal) → List (String × JSON)
  | [] => []
  | (name, v) :: rest =>
    match findTag fields name with
    | none => encodeFields fields rest
    | some f =>
      if f.1.omitempty && isEmptyValue v then encodeFields fields rest
      else (f.1.key, encode f.2 v) :: encodeFields fields rest
end

/-- The replacement `htmlRegex.ReplaceAllLiteralString(s, "")` for the pattern
`<[^<]+?>`, on the characters of `s`. While a match may be under way, `open_`
holds the characters read after its `<`, last one first. A match ends at the
first `>` that follows at least one character; a `<` met before that starts a
new match and the characters held are kept. -/
def removeTags : Option (List Char) → List Char → List Char
  | none, [] => []
  | none, c :: cs => if c = '<' then removeTags (some []) cs else c :: removeTags none cs
  | some open_, [] => '<' :: open_.reverse
  | some open_, c :: cs =>
    if c = '<' then '<' :: (open_.reverse ++ removeTags (some []) cs)
    else if c = '>' ∧ open_ ≠ [] then removeTags none cs
    else removeTags (some (c :: open_)) cs

/-- The method `(m TextMessage) body() string`; `unescapeString` is
`html.UnescapeString`. -/
def TextMessage.body (unescapeString : String → String) (m : GoVal) : String :=
  if (m.field "Format").getStr = formatOrgMatrixCustomHtml then
    unescapeString (String.mk (removeTags none (m.field "FormattedBody").getStr.data))
  else (m.field "FormattedBody").getStr

/-- Whether the pointer type to the struct of this name has a MarshalJSON
method in `events.go`. -/
def hasMarshalJSON (name : String) : Bool :=
  name = "TextMessage" || name = "EmoteMessage" || name = "NoticeMessage" ||
  name = "VideoMessage" || name = "ImageMessage" || name = "FileMessage" ||
  name = "LocationMessage" || name = "AudioMessage"

/-- The value a pointer leads to. -/
def GoVal.pointee : GoVal → GoVal
  | .ptr v => v
  | v => v

mutual
/-- The call `json.Marshal(v)` for the value `v` held by an `interface{}`:
the value afterwards (a MarshalJSON method updates what its receiver points
to) and the document, or `none` when `fuel` nested calls did not suffice. A
non-nil pointer whose type has a MarshalJSON method is encoded by that method;
a value that is not a pointer is not addressable, so no method with a pointer
receiver is called for it. -/
def json.Marshal (unescapeString : String → String) : Nat → Dyn → Dyn × Option JSON
  | 0, v =>
    match v.type, v.val with
    | .ptr (.struct name _), .ptr _ =>
      if hasMarshalJSON name then (v, none) else (v, some (encode v.type v.val))
    | _, _ => (v, some (encode v.type v.val))
  | fuel + 1, v =>
    match v.type, v.val with
    | .ptr (.struct name _), .ptr m =>
      if name = "TextMessage" then
        let r := TextMessage.MarshalJSON unescapeString fuel m
        (⟨v.type, .ptr r.1⟩, r.2)
      else if name = "EmoteMessage" then
        let r := EmoteMessage.MarshalJSON unescapeString fuel m
        (⟨v.type, .ptr r.1⟩, r.2)
      else if name = "NoticeMessage" then
        let r := NoticeMessage.MarshalJSON unescapeString fuel m
        (⟨v.type, .ptr r.1⟩, r.2)
      else if name = "VideoMessage" then
        let r := VideoMessage.MarshalJSON unescapeString fuel m
        (⟨v.type, .ptr r.1⟩, r.2)
      else if name = "ImageMessage" then
        let r := ImageMessage.MarshalJSON unescapeString fuel m
        (⟨v.type, .ptr r.1⟩, r.2)
      else if name = "FileMessage" then
        let r := FileMessage.MarshalJSON unescapeString fuel m
        (⟨v.type, .ptr r.1⟩, r.2)
      else if name = "LocationMessage" then
        let r := LocationMessage.MarshalJSON unescapeString fuel m
        (⟨v.type, .ptr r.1⟩, r.2)
      else if name = "AudioMessage" then
        let r := AudioMessage.MarshalJSON unescapeString fuel m
        (⟨v.type, .ptr r.1⟩, r.2)
      else (v, some (encode v.type v.val))
    | _, _ => (v, some (encode v.type v.val))
/-- The method `(m *TextMessage) MarshalJSON() ([]byte, error)`: the receiver
afterwards and the document, or `none` when the fuel did not suffice. -/
def TextMessage.MarshalJSON (unescapeString : String → String) : Nat → GoVal → GoVal × Option JSON
  | 0, m =>
    let m := m.setField "MsgType" (.str messageText)
    let m := if (m.field "Format").getStr ≠ "" then
      m.setField "Body" (.str (TextMessage.body unescapeString m)) else m
    (m, none)
  | fuel + 1, m =>
    let m := m.setField "MsgType" (.str messageText)
    let m := if (m.field "Format").getStr ≠ "" then
      m.setField "Body" (.str (TextMessage.body unescapeString m)) else m
    let r := json.Marshal unescapeString fuel ⟨.ptr TextMessage, .ptr m⟩
    (r.1.val.pointee, r.2)
/-- The method `(m *EmoteMessage) MarshalJSON() ([]byte, error)`. -/
def EmoteMessage.MarshalJSON (unescapeString : String → String) : Nat → GoVal → GoVal × Option JSON
  | 0, m =>
    let m := m.setField "MsgType" (.str messageEmote)
    let m := if (m.field "Format").getStr ≠ "" then
      m.setField "Body" (.str (TextMessage.body unescapeString m)) else m
    (m, none)
  | fuel + 1, m =>
    let m := m.setField "MsgType" (.str messageEmote)
    let m := if (m.field "Format").getStr ≠ "" then
      m.setField "Body" (.str (TextMessage.body unescapeString m)) else m
    let r := json.Marshal unescapeString fuel ⟨.ptr EmoteMessage, .ptr m⟩
    (r.1.val.pointee, r.2)
/-- The method `(m *NoticeMessage) MarshalJSON() ([]byte, error)`. -/
def NoticeMessage.MarshalJSON (unescapeString : String → String) : Nat → GoVal → GoVal × Option JSON
  | 0, m => (m.setField "MsgType" (.str messageNotice), none)
  | fuel + 1, m =>
    let m := m.setField "MsgType" (.str messageNotice)
    let r := json.Marshal unescapeString fuel ⟨.ptr NoticeMessage, .ptr m⟩
    (r.1.val.pointee, r.2)
/-- The method `(m *VideoMessage) MarshalJSON() ([]byte, error)`. -/
def VideoMessage.MarshalJSON (unescapeString : String → String) : Nat → GoVal → GoVal × Option JSON
  | 0, m => (m.setField "MsgType" (.str messageVideo), none)
  | fuel + 1, m =>
    let m := m.setField "MsgType" (.str messageVideo)
    let r := json.Marshal unescapeString fuel ⟨.ptr VideoMessage, .ptr m⟩
    (r.1.val.pointee, r.2)
/-- The method `(m *ImageMessage) MarshalJSON() ([]byte, error)`. -/
def ImageMessage.MarshalJSON (unescapeString : String → String) : Nat → GoVal → GoVal × Option JSON
  | 0, m => (m.setField "MsgType" (.str messageImage), none)
  | fuel + 1, m =>
    let m := m.setField "MsgType" (.str messageImage)
    let r := json.Marshal unescapeString fuel ⟨.ptr ImageMessage, .ptr m⟩
    (r.1.val.pointee, r.2)
/-- The method `(m *FileMessage) MarshalJSON() ([]byte, error)`. -/
def FileMessage.MarshalJSON (unescapeString : String → String) : Nat → GoVal → GoVal × Option JSON
  | 0, m => (m.setField "MsgType" (.str messageFile), none)
  | fuel + 1, m =>
    let m := m.setField "MsgType" (.str messageFile)
    let r := json.Marshal unescapeString fuel ⟨.ptr FileMessage, .ptr m⟩
    (r.1.val.pointee, r.2)
/-- The method `(m *LocationMessage) MarshalJSON() ([]byte, error)`. -/
def LocationMessage.MarshalJSON (unescapeString : String → String) : Nat → GoVal → GoVal × Option JSON
  | 0, m => (m.setField "MsgType" (.str messageLocation), none)
  | fuel + 1, m =>
    let m := m.setField "MsgType" (.str messageLocation)
    let r := json.Marshal unescapeString fuel ⟨.ptr LocationMessage, .ptr m⟩
    (r.1.val.pointee, r.2)
/-- The method `(m *AudioMessage) MarshalJSON() ([]byte, error)`. -/
def AudioMessage.MarshalJSON (unescapeString : String → String) : Nat → GoVal → GoVal × Option JSON
  | 0, m => (m.setField "MsgType" (.str messageAudio), none)
  | fuel + 1, m =>
    let m := m.setField "MsgType" (.str messageAudio)
    let r := json.Marshal unescapeString fuel ⟨.ptr AudioMessage, .ptr m⟩
    (r.1.val.pointee, r.2)
end

/-- The members `encoding/json` writes for an Event whose content is encoded
as `content`, in the order of the fields of the struct. -/
def Event.members (e : Event) (content : JSON) : List (String × JSON) :=
  (match e.StateKey with
    | some k => [("state_key", JSON.str k)]
    | none => []) ++
  [("sender", .str e.Sender), ("type", .str e.Type_), ("origin_server_ts", .int e.Timestamp),
   ("event_id", .str e.ID), ("room_id", .str e.RoomID), ("content", content)] ++
  (if e.Redacts = "" then [] else [("redacts", .str e.Redacts)])

/-- The call `json.Marshal(e)` for an Event: the event afterwards and the
document, or `none` when the fuel did not suffice. The content is encoded as
`json.Marshal` encodes the value the `interface{}` holds. -/
def Event.Marshal (unescapeString : String → String) (fuel : Nat) (e : Event) :
    Event × Option JSON :=
  match e.Content with
  | none => (e, some (.obj (e.members .null)))
  | some c =>
    let r := json.Marshal unescapeString fuel c
    ({ e with Content := some r.1 }, r.2.map (fun j => .obj (e.members j)))

/-! ## room.go -/

/-- A non-nil `*event.Event`: the address and the Event it points to. The
functions of `room.go` never write through the pointer. -/
structure EventPtr where
  addr : Nat
  deref : Event

/-- The struct Room as its reads show it. `State` is the
`map[string]map[string]*event.Event`: a map is `none` when nil, and so is a
`*event.Event`. The inner maps are held by value here, so that no inner map is
stored under two keys; `HeapRoom` holds them by reference, and the two agree
on the rooms that store no inner map under two keys (`view_UpdateState`). -/
structure Room where
  ID : String
  State : Option (List (String × Option (List (String × Option EventPtr))))

/-- How a call that updates state ends: it returns (done), or it panics, with
the state as the panic found it. -/
inductive Run (α : Type) where
  | done (a : α)
  | panic (a : α)

/-- The read `m[k]` of a map that may be nil: `none` when `k` has no entry. -/
def index {α : Type} (m : Option (List (String × α))) (k : String) : Option α :=
  match m with
  | none => none
  | some kvs => mapLookup k kvs

/-- The method `(room Room) UpdateState(e *event.Event)`. The receiver is a
copy, but its `State` is the map of the caller: the Room returned holds the
state after the call. First `_, exists := room.State[e.Type]` and the creation
of the inner map when there is none, then
`room.State[e.Type][*e.StateKey] = e`. -/
def Room.UpdateState (room : Room) (e : Option EventPtr) : Run Room :=
  match e with
  | none => .panic room
  | some p =>
    let made : Run Room :=
      match index room.State p.deref.Type_ with
      | some _ => .done room
      | none =>
        match room.State with
        | none => .panic room
        | some state =>
          .done { room with State := some (mapAssign p.deref.Type_ (some []) state) }
    match made with
    | .panic room => .panic room
    | .done room =>
      match p.deref.StateKey, (index room.State p.deref.Type_).getD none, room.State with
      | some k, some entries, some state =>
        .done { room with
          State := some (mapAssign p.deref.Type_ (some (mapAssign k (some p) entries)) state) }
      | _, _, _ => .panic room

/-- The method `(room Room) GetStateEvent(eventType string, stateKey string) *event.Event`. -/
def Room.GetStateEvent (room : Room) (eventType : String) (stateKey : String) : Option EventPtr :=
  let stateEventMap := (index room.State eventType).getD none
  let event := (index stateEventMap stateKey).getD none
  event

/-- The method `(room Room) GetMembershipState(userID string) string`; `none`
when the call panics: a nil `*event.RoomMember` held by the content passes the
type assertion and is then dereferenced. -/
def Room.GetMembershipState (room : Room) (userID : String) : Option String :=
  match room.GetStateEvent "m.room.member" userID with
  | some e =>
    match e.deref.Content with
    | some ⟨.ptr (.struct "RoomMember" _), .ptr t⟩ => some (t.field "Membership").getStr
    | some ⟨.ptr (.struct "RoomMember" _), _⟩ => none
    | _ => some "leave"
  | none => some "leave"

/-- The function `NewRoom(roomID string) *Room`. -/
def NewRoom (roomID : String) : Room :=
  { ID := roomID, State := some [] }

/-! ### The inner maps held by reference -/

/-- The struct Room with its inner maps held by reference, as Go holds them:
`State` gives for each type the address of its inner map (`none` for a nil
map) and `Maps a` is the map at the address `a`. An address stored under two
types is one map shared by the two. -/
structure HeapRoom where
  ID : String
  State : Option (List (String × Option Nat))
  Maps : Nat → List (String × Option EventPtr)

/-- An address above every address the state map stores: where `make` puts a
new map. -/
def freshAddr : List (String × Option Nat) → Nat
  | [] => 0
  | (_, none) :: rest => freshAddr rest
  | (_, some a) :: rest => max (a + 1) (freshAddr rest)

/-- The method `(room Room) UpdateState(e *event.Event)` on a room with its
inner maps held by reference. `make` gives an empty map at an address not in
use; the assignment `room.State[e.Type][*e.StateKey] = e` writes the map at
the address stored under `e.Type`, and leaves the state map as it is. -/
def HeapRoom.UpdateState (room : HeapRoom) (e : Option EventPtr) : Run HeapRoom :=
  match e with
  | none => .panic room
  | some p =>
    let made : Run HeapRoom :=
      match index room.State p.deref.Type_ with
      | some _ => .done room
      | none =>
        match room.State with
        | none => .panic room
        | some state =>
          .done { room with
            State := some (mapAssign p.deref.Type_ (some (freshAddr state)) state)
            Maps := Function.update room.Maps (freshAddr state) [] }
    match made with
    | .panic room => .panic room
    | .done room =>
      match p.deref.StateKey, (index room.State p.deref.Type_).getD none with
      | some k, some a =>
        .done { room with
          Maps := Function.update room.Maps a (mapAssign k (some p) (room.Maps a)) }
      | _, _ => .panic room

/-- The method `(room Room) GetStateEvent(eventType string, stateKey string) *event.Event`
on a room with its inner maps held by reference. -/
def HeapRoom.GetStateEvent (room : HeapRoom) (eventType : String) (stateKey : String) :
    Option EventPtr :=
  let stateEventMap := ((index room.State eventType).getD none).map room.Maps
  let event := (index stateEventMap stateKey).getD none
  event


/-! ## Inputs and notions used in the statements -/

/-- Whether the call panicked. -/
def Run.panicked {α : Type} : Run α → Bool
  | .panic _ => true
  | .done _ => false

/-- A state event of the given type and state key, with a name as content. -/
def stateEvent (type_ stateKey name : String) : Event :=
  { Event.zero with
    StateKey := some stateKey, Type_ := type_,
    Content := some ⟨RoomName, .struct [("Name", .str name)]⟩ }

/-- A room whose state map is initialised and holds a nil inner map. -/
def nilInnerRoom : Room := { ID := "!r:x", State := some [("m.room.name", none)] }

/-- The envelope of a membership event of user `u` with membership `m`. -/
def memberEnvelope (u m : String) : JSON :=
  .obj [("type", .str "m.room.member"), ("state_key", .str u),
    ("content", .obj [("membership", .str m)])]

/-- The event `UnmarshalJSON` makes of `memberEnvelope u m`: its content is a
RoomMember value. -/
def decodedMember (u m : String) : Event :=
  { Event.zero with
    StateKey := some u, Type_ := "m.room.member",
    Content := some ⟨RoomMember, .struct [("AvatarURL", .str ""), ("Displayname", .str ""),
      ("Membership", .str m), ("IsDirect", .str ""), ("ThirdPartyInvite", .bool false)]⟩ }

/-- The member of key `k` of a JSON object: the last one when the key is
repeated. -/
def member (k : String) : List (String × JSON) → Option JSON
  | [] => none
  | (k', v) :: rest =>
    match member k rest with
    | some v' => some v'
    | none => if k' = k then some v else none

mutual
/-- Whether every number literal of the document is within the range of
`float64`. -/
def numbersFit : JSON → Bool
  | .null => true
  | .bool _ => true
  | .int n => !float64Overflow n 0
  | .dec m e => !float64Overflow m e
  | .str _ => true
  | .arr xs => numbersFitList xs
  | .obj kvs => numbersFitMembers kvs
/-- Whether every number literal of the elements is within the range of `float64`. -/
def numbersFitList : List JSON → Bool
  | [] => true
  | x :: xs => numbersFit x && numbersFitList xs
/-- Whether every number literal of the members is within the range of `float64`. -/
def numbersFitMembers : List (String × JSON) → Bool
  | [] => true
  | (_, v) :: rest => numbersFit v && numbersFitMembers rest
end

/-- The event-type tags with an arm of their own in the switch of UnmarshalJSON. -/
def registeredTags : List String :=
  [eventRoomAliases, eventRoomCanonicalAlias, eventRoomCreate, eventRoomJoinRules,
   eventRoomMember, eventRoomPowerLevels, eventRoomRedaction, eventRoomMessage,
   eventRoomMessageFeedback, eventRoomName, eventRoomTopic, eventRoomAvatar,
   eventRoomPinnedEvents, eventCallInvite, eventCallCandidates, eventCallAnswer,
   eventCallHangup, eventTyping, eventReceipt, eventPresence, eventRoomHistoryVisibility,
   eventRoomThirdPartyInvite, eventRoomGuestAccess, eventDirect]

/-- The message subtypes with an arm of their own in the inner switch. -/
def messageTags : List String :=
  [messageText, messageEmote, messageNotice, messageImage, messageVideo, messageFile,
   messageLocation, messageAudio]

/-- The receiver after the envelope fields of the decoded jsonEvent `je` are
copied into it (lines 82 to 87 of `events.go`). -/
def Event.withEnvelope (e : Event) (je : GoVal) : Event :=
  { e with
    StateKey := (je.field "StateKey").getStrPtr
    Sender := (je.field "Sender").getStr
    Type_ := (je.field "Type").getStr
    Timestamp := (je.field "Timestamp").getInt
    ID := (je.field "ID").getStr
    RoomID := (je.field "RoomID").getStr }

/-- The envelope `{"type":"m.room.message","content":{"msgtype":"m.text","body":b}}`. -/
def textEnvelope (b : String) : JSON :=
  .obj [("type", .str "m.room.message"),
    ("content", .obj [("msgtype", .str "m.text"), ("body", .str b)])]

/-- The envelope
`{"type":"m.room.message","content":{"msgtype":"m.bogus","n":1e400}}`. -/
def bogusEnvelope : JSON :=
  .obj [("type", .str "m.room.message"),
    ("content", .obj [("msgtype", .str "m.bogus"), ("n", .dec 1 400)])]

/-- The envelope `{"type":"m.custom.foo","content":{"x":1e400}}`. -/
def customOverflowEnvelope : JSON :=
  .obj [("type", .str "m.custom.foo"), ("content", .obj [("x", .dec 1 400)])]

/-- The envelope `{"type":"m.custom.foo","content":{"x":1}}`. -/
def customEnvelope : JSON :=
  .obj [("type", .str "m.custom.foo"), ("content", .obj [("x", .int 1)])]

/-- The jsonEvent decoded from an envelope that has only the type `t` and the
content `c`. -/
def bareEnvelope (t : String) (c : JSON) : GoVal :=
  .struct [("StateKey", .nil), ("Sender", .str ""), ("Type", .str t), ("Timestamp", .int 0),
    ("ID", .str ""), ("RoomID", .str ""), ("Content", .raw (some c))]

/-- The envelope
`{"type":"m.room.message","content":{"msgtype":"m.image","body":"pic","url":"mxc://x/y","info":{"h":1}}}`. -/
def imageEnvelope : JSON :=
  .obj [("type", .str "m.room.message"),
    ("content", .obj [("msgtype", .str "m.image"), ("body", .str "pic"),
      ("url", .str "mxc://x/y"), ("info", .obj [("h", .int 1)])])]

/-- The TextMessage value `TextMessage{Body: b, MsgType: t, Format: f, FormattedBody: fb}`. -/
def textMessage (b t f fb : String) : GoVal :=
  .struct [("Body", .str b), ("MsgType", .str t), ("Format", .str f), ("FormattedBody", .str fb)]

/-- The NoticeMessage value `NoticeMessage{Body: b, MsgType: t}`. -/
def noticeMessage (b t : String) : GoVal :=
  .struct [("Body", .str b), ("MsgType", .str t)]

/-- A message event with the given content. -/
def messageEvent (content : Dyn) : Event :=
  { Event.zero with Sender := "@a:x", Type_ := "m.room.message", Content := some content }

/-- What `html.UnescapeString` does to a string that holds no `&`: it returns
the string as it is. Used where the strings at hand hold no `&`. -/
def unescapePlain : String → String := fun s => s

/-- The redaction event
`Event{Sender: "@a:x", Type: "m.room.redaction", Redacts: "$ev1", Content: RoomRedaction{Reason: "spam"}}`. -/
def redactionEvent : Event :=
  { Event.zero with
    Sender := "@a:x", Type_ := "m.room.redaction", Redacts := "$ev1",
    Content := some ⟨RoomRedaction, .struct [("Reason", .str "spam")]⟩ }

/-- The document `encoding/json` writes for `redactionEvent`. -/
def redactionJSON : JSON :=
  .obj [("sender", .str "@a:x"), ("type", .str "m.room.redaction"), ("origin_server_ts", .int 0),
    ("event_id", .str ""), ("room_id", .str ""), ("content", .obj [("reason", .str "spam")]),
    ("redacts", .str "$ev1")]

/-- The Body that `(*TextMessage).MarshalJSON` leaves in a receiver of body `b`,
format `f` and formatted body `fb`. -/
def bodyAfterMarshal (unescapeString : String → String) (b f fb : String) : String :=
  if f = "" then b
  else if f = formatOrgMatrixCustomHtml then unescapeString (String.mk (removeTags none fb.data))
  else fb


/-- Whether the JSON key `k` is the key `key` of a struct field, compared as
`encoding/json` compares keys: up to case. -/
def matchesKey (key k : String) : Bool := foldName k == foldName key

/-- The value an envelope gives for the field of key `key`: the value of its
last member whose key is `key` up to case. -/
def envelopeMember (key : String) : List (String × JSON) → Option JSON
  | [] => none
  | (k, v) :: rest =>
    match envelopeMember key rest with
    | some v' => some v'
    | none => if matchesKey key k then some v else none

/-- Whether two events agree on every field but `Content`. -/
def Event.sameEnvelope (a b : Event) : Prop :=
  a.StateKey = b.StateKey ∧ a.Sender = b.Sender ∧ a.Type_ = b.Type_ ∧
  a.Timestamp = b.Timestamp ∧ a.ID = b.ID ∧ a.RoomID = b.RoomID ∧ a.Redacts = b.Redacts

/-- The fields of the struct jsonEvent. -/
def jsonEventFields : List (Tag × GoType) := jsonEvent.fields

/-- The envelope
`{"type":"m.room.redaction","redacts":"$ev1","content":{"reason":"spam"}}`. -/
def redactsEnvelope : JSON :=
  .obj [("type", .str "m.room.redaction"), ("redacts", .str "$ev1"),
    ("content", .obj [("reason", .str "spam")])]

/-- The Content Registry of the specification: the shape assigned to each of
the 23 registered event-type tags other than the message tag. -/
def registry : List (String × GoType) :=
  [(eventRoomAliases, RoomAliases),
   (eventRoomCanonicalAlias, RoomCanonicalAlias),
   (eventRoomCreate, RoomCreate),
   (eventRoomJoinRules, RoomJoinRules),
   (eventRoomMember, RoomMember),
   (eventRoomPowerLevels, RoomPowerLevels),
   (eventRoomRedaction, RoomRedaction),
   (eventRoomMessageFeedback, RoomMessageFeedback),
   (eventRoomName, RoomName),
   (eventRoomTopic, RoomTopic),
   (eventRoomAvatar, RoomAvatar),
   (eventRoomPinnedEvents, RoomPinnedEvents),
   (eventCallInvite, CallInvite),
   (eventCallCandidates, CallCandidates),
   (eventCallAnswer, CallAnswer),
   (eventCallHangup, CallHangup),
   (eventTyping, Typing),
   (eventReceipt, Receipt),
   (eventPresence, Presence),
   (eventRoomHistoryVisibility, RoomHistoryVisibility),
   (eventRoomThirdPartyInvite, RoomThirdPartyInvite),
   (eventRoomGuestAccess, RoomAliases),
   (eventDirect, RoomAliases)]

/-- The shape the registry assigns to a tag; the fallback mapping when the tag
is not registered. -/
def registeredShape (tag : String) : GoType :=
  (mapLookup tag registry).getD mapStringInterface

/-- The value a content of type `t` starts as in UnmarshalJSON: the zero
struct `T{}`, and the empty map for a map type (`Receipt{}`, `make(...)`). -/
def freshValue : GoType → GoVal
  | .map _ => .map []
  | t => zeroValue t

/-- The envelope `{"type":"m.room.name","content":{"name":"x"}}`: no sender. -/
def noSenderEnvelope : JSON :=
  .obj [("type", .str "m.room.name"), ("content", .obj [("name", .str "x")])]

/-- The envelope `{"sender":"@a:x","content":{}}`: no type. -/
def noTypeEnvelope : JSON :=
  .obj [("sender", .str "@a:x"), ("content", .obj [])]

/-- The members of a full envelope of a name event. -/
def fullEnvelopeMembers : List (String × JSON) :=
  [("sender", .str "@a:x"), ("type", .str "m.room.name"), ("origin_server_ts", .int 1500),
   ("event_id", .str "$ev1"), ("room_id", .str "!r:x"), ("state_key", .str ""),
   ("content", .obj [("name", .str "x")])]

/-- The event decoded from the full envelope of a name event. -/
def fullEnvelopeEvent : Event :=
  { StateKey := some "", Sender := "@a:x", Type_ := "m.room.name", Timestamp := 1500,
    ID := "$ev1", RoomID := "!r:x",
    Content := some ⟨RoomName, .struct [("Name", .str "x")]⟩, Redacts := "" }

/-- The envelope `{"type":"m.room.name","state_key":"","content":{"name":"x"}}`. -/
def stateKeyEnvelope : JSON :=
  .obj [("type", .str "m.room.name"), ("state_key", .str ""),
    ("content", .obj [("name", .str "x")])]

/-- The event decoded from `stateKeyEnvelope`. -/
def stateKeyEvent : Event :=
  { Event.zero with
    StateKey := some "", Type_ := "m.room.name",
    Content := some ⟨RoomName, .struct [("Name", .str "x")]⟩ }

/-- The envelope `{"type":"m.room.message","content":{"n":1e400}}`. -/
def noMsgtypeOverflowEnvelope : JSON :=
  .obj [("type", .str "m.room.message"), ("content", .obj [("n", .dec 1 400)])]

/-- The envelope `{"type":"m.room.message","content":{"body":"hi"}}`. -/
def noMsgtypeEnvelope : JSON :=
  .obj [("type", .str "m.room.message"), ("content", .obj [("body", .str "hi")])]

/-- The envelope `{"type":"m.room.message","content":c}`. -/
def messageEnvelope (c : JSON) : JSON :=
  .obj [("type", .str "m.room.message"), ("content", c)]

/-- The envelope `{"type":"m.room.guest_access","content":{"aliases":["#a:x"]}}`. -/
def guestAccessEnvelope : JSON :=
  .obj [("type", .str "m.room.guest_access"),
    ("content", .obj [("aliases", .arr [.str "#a:x"])])]

/-! ## response/responses.go -/

/-- One element of `Flows`: the struct with the field `Stages []string`. -/
structure Flow where
  Stages : List String

/-- The struct UserInteractive. A slice is the list of its elements (none for
the nil slice); `Params` is the `map[string]interface{}`, `none` when nil. -/
structure UserInteractive where
  Flows : List Flow
  Params : Option (List (String × GoVal))
  Session : String
  Completed : List String
  ErrCode : String
  Error : String

/-- The loop of HasSingleStageFlow over the flows left to visit:
`if len(f.Stages) == 1 && f.Stages[0] == stageName { return true }`, and
`return false` after the last flow. -/
def hasSingleStageFlowFrom (stageName : String) : List Flow → Bool
  | [] => false
  | f :: rest =>
    if f.Stages.length == 1 && f.Stages.head? == some stageName then true
    else hasSingleStageFlowFrom stageName rest

/-- The method `(r UserInteractive) HasSingleStageFlow(stageName string) bool`. -/
def UserInteractive.HasSingleStageFlow (r : UserInteractive) (stageName : String) : Bool :=
  hasSingleStageFlowFrom stageName r.Flows

/-- The room a call leaves behind, whether it returned or panicked. -/
def Run.state {α : Type} : Run α → α
  | .done a => a
  | .panic a => a

/-- The events applied in order with UpdateState; the first panic ends the run. -/
def applyAll (room : Room) : List EventPtr → Run Room
  | [] => .done room
  | e :: es =>
    match room.UpdateState (some e) with
    | .done r => applyAll r es
    | .panic r => .panic r

/-- An event that holds the text message of an earlier decode. -/
def staleEvent : Event :=
  { StateKey := some "k", Sender := "@a:x", Type_ := "m.room.message", Timestamp := 7,
    ID := "$old", RoomID := "!r:x",
    Content := some ⟨TextMessage, textMessage "old" "m.text" "" ""⟩, Redacts := "" }

/-- The envelope
`{"type":"m.room.message","sender":"@b:x","content":{"body":"new"}}`. -/
def newEnvelope : JSON :=
  .obj [("type", .str "m.room.message"), ("sender", .str "@b:x"),
    ("content", .obj [("body", .str "new")])]

/-- The jsonEvent decoded from `newEnvelope`. -/
def newEnvelopeDecoded : GoVal :=
  .struct [("StateKey", .nil), ("Sender", .str "@b:x"), ("Type", .str "m.room.message"),
    ("Timestamp", .int 0), ("ID", .str ""), ("RoomID", .str ""),
    ("Content", .raw (some (.obj [("body", .str "new")])))]

/-- What `html.UnescapeString` does to the characters of a string whose only
character references are `&lt;` and `&gt;`: each is replaced by the character
it names. -/
def unescapeLtGtChars : List Char → List Char
  | [] => []
  | '&' :: 'l' :: 't' :: ';' :: rest => '<' :: unescapeLtGtChars rest
  | '&' :: 'g' :: 't' :: ';' :: rest => '>' :: unescapeLtGtChars rest
  | c :: rest => c :: unescapeLtGtChars rest

/-- What `html.UnescapeString` does to a string whose only character
references are `&lt;` and `&gt;`. Used where the strings at hand are such. -/
def unescapeLtGt (s : String) : String := String.mk (unescapeLtGtChars s.data)

/-- Whether the inner maps stored under two types are one and the same map. A
nil map is no map. -/
def HeapRoom.sameMap (room : HeapRoom) (t t' : String) : Bool :=
  match (index room.State t).getD none, (index room.State t').getD none with
  | some a, some a' => a == a'
  | _, _ => false

/-- The room as its reads show it: each address replaced by the map found
there. -/
def HeapRoom.view (room : HeapRoom) : Room :=
  { ID := room.ID
    State := room.State.map (fun state =>
      state.map (fun entry => (entry.1, entry.2.map room.Maps))) }

/-- A room that stores one inner map, the empty map at address 0, under two
types. -/
def sharedMapRoom : HeapRoom :=
  { ID := "!r:x", State := some [("m.room.name", some 0), ("m.room.topic", some 0)],
    Maps := fun _ => [] }

/-- A room that holds a topic event in an inner map of its own. -/
def topicRoom : HeapRoom :=
  { ID := "!r:x", State := some [("m.room.topic", some 0)],
    Maps := fun _ => [("", some ⟨1, stateEvent "m.room.topic" "" "t"⟩)] }

/-! ## Maps -/

theorem mapLookup_mapAssign_self {α : Type} (k : String) (v : α) (m : List (String × α)) :
    mapLookup k (mapAssign k v m) = some v := by
  induction m with
  | nil => simp [mapAssign, mapLookup]
  | cons x xs ih =>
    obtain ⟨k', v'⟩ := x
    by_cases h : k' = k
    · simp [mapAssign, mapLookup, h]
    · simp [mapAssign, mapLookup, h, ih]

theorem mapLookup_mapAssign_ne {α : Type} (k k' : String) (v : α) (m : List (String × α))
    (h : k' ≠ k) : mapLookup k' (mapAssign k v m) = mapLookup k' m := by
  induction m with
  | nil => simp [mapAssign, mapLookup, Ne.symm h]
  | cons x xs ih =>
    obtain ⟨k₁, v₁⟩ := x
    by_cases h₁ : k₁ = k
    · subst h₁
      simp [mapAssign, mapLookup, Ne.symm h]
    · by_cases h₂ : k₁ = k'
      · subst h₂
        simp [mapAssign, mapLookup, h₁]
      · simp [mapAssign, mapLookup, h₁, h₂, ih]

/-- An update of a room whose state map is not nil and holds no nil inner map
under the type of the event returns, and the event is then the one read back
under its type and state key. -/
theorem UpdateState_done (room : Room) (p : EventPtr) (k : String)
    (hState : room.State ≠ none) (hInner : index room.State p.deref.Type_ ≠ some none)
    (hKey : p.deref.StateKey = some k) :
    ∃ r, room.UpdateState (some p) = .done r ∧ r.State ≠ none ∧
      (∀ t, index r.State t ≠ some none ↔ index room.State t ≠ some none) ∧
      r.GetStateEvent p.deref.Type_ k = some p := by
  obtain ⟨ID, State⟩ := room
  cases State with
  | none => exact absurd rfl hState
  | some state =>
    simp only [index] at hInner
    cases hL : mapLookup p.deref.Type_ state with
    | none =>
      refine ⟨⟨ID, some (mapAssign p.deref.Type_ (some [(k, some p)])
        (mapAssign p.deref.Type_ (some []) state))⟩, ?_, ?_, ?_, ?_⟩
      · simp [Room.UpdateState, index, hL, hKey, mapLookup_mapAssign_self, mapAssign]
      · simp
      · intro t
        by_cases ht : t = p.deref.Type_
        · subst ht
          simp [index, mapLookup_mapAssign_self, hL]
        · simp [index, mapLookup_mapAssign_ne _ _ _ _ ht]
      · simp [Room.GetStateEvent, index, mapLookup_mapAssign_self, mapAssign, mapLookup]
    | some inner =>
      cases inner with
      | none => exact absurd hL hInner
      | some entries =>
        refine ⟨⟨ID, some (mapAssign p.deref.Type_ (some (mapAssign k (some p) entries))
          state)⟩, ?_, ?_, ?_, ?_⟩
        · simp [Room.UpdateState, index, hL, hKey]
        · simp
        · intro t
          by_cases ht : t = p.deref.Type_
          · subst ht
            simp [index, mapLookup_mapAssign_self, hL]
          · simp [index, mapLookup_mapAssign_ne _ _ _ _ ht]
        · simp [Room.GetStateEvent, index, mapLookup_mapAssign_self]


/-! ## Room state: C1 to C3 -/

/-- C1 (as amended): for every room whose State map is not nil and holds no nil
inner map under the type of e1, and every two events e1, e2 with the same type
and the same non-nil state key k, UpdateState(e1) and then UpdateState(e2) both
return, and GetStateEvent(e2.Type, k) then returns the pointer e2 (so not e1,
when the two pointers differ). -/
theorem C1_last_write_wins (room : Room) (e1 e2 : EventPtr) (k : String)
    (hState : room.State ≠ none)
    (hInner : index room.State e1.deref.Type_ ≠ some none)
    (hKey1 : e1.deref.StateKey = some k) (hKey2 : e2.deref.StateKey = some k)
    (hType : e1.deref.Type_ = e2.deref.Type_) :
    ∃ r1 r2, room.UpdateState (some e1) = .done r1 ∧ r1.UpdateState (some e2) = .done r2 ∧
      r2.GetStateEvent e2.deref.Type_ k = some e2 ∧
      (e1.addr ≠ e2.addr → r2.GetStateEvent e2.deref.Type_ k ≠ some e1) := by
  obtain ⟨r1, h1, hS1, hI1, _⟩ := UpdateState_done room e1 k hState hInner hKey1
  have hInner2 : index r1.State e2.deref.Type_ ≠ some none := by
    rw [← hType]
    exact (hI1 _).mpr hInner
  obtain ⟨r2, h2, _, _, hGet⟩ := UpdateState_done r1 e2 k hS1 hInner2 hKey2
  refine ⟨r1, r2, h1, h2, hGet, ?_⟩
  intro hne hEq
  rw [hGet] at hEq
  exact hne (by rw [Option.some.inj hEq])

/-- C1, witness: two name events of one room, applied to a new room. -/
theorem C1_last_write_wins_witness :
    ∃ r1 r2,
      (NewRoom "!r:x").UpdateState (some ⟨1, stateEvent "m.room.name" "" "old"⟩) = .done r1 ∧
      r1.UpdateState (some ⟨2, stateEvent "m.room.name" "" "new"⟩) = .done r2 ∧
      r2.GetStateEvent "m.room.name" "" = some ⟨2, stateEvent "m.room.name" "" "new"⟩ ∧
      ((1 : Nat) ≠ 2 →
        r2.GetStateEvent "m.room.name" "" ≠ some ⟨1, stateEvent "m.room.name" "" "old"⟩) :=
  C1_last_write_wins (NewRoom "!r:x") ⟨1, stateEvent "m.room.name" "" "old"⟩
    ⟨2, stateEvent "m.room.name" "" "new"⟩ "" (by simp [NewRoom])
    (by simp [NewRoom, index, mapLookup]) rfl rfl rfl

/-- C1, counterexample: the State map of the room is initialised (not nil), the
two events have the same type and the same non-nil state key, and the first
UpdateState panics (assignment to an entry of the nil inner map) and leaves the
room as it was, so that no event can be read back. -/
theorem C1_nil_inner_map_panics :
    nilInnerRoom.State.isSome = true ∧
    (stateEvent "m.room.name" "" "old").StateKey = some "" ∧
    (stateEvent "m.room.name" "" "new").StateKey = some "" ∧
    (stateEvent "m.room.name" "" "old").Type_ = (stateEvent "m.room.name" "" "new").Type_ ∧
    (nilInnerRoom.UpdateState (some ⟨1, stateEvent "m.room.name" "" "old"⟩)).panicked = true ∧
    nilInnerRoom.GetStateEvent "m.room.name" "" = none :=
  ⟨rfl, rfl, rfl, rfl, rfl, rfl⟩

/-- C2 (code at the failing input, for every user and membership): the event
decoded from a membership envelope holds a RoomMember value, not a pointer to
one, so after UpdateState on a new room the type assertion of
GetMembershipState fails and the call returns "leave", whatever membership the
envelope carries. -/
theorem C2_decoded_member_reads_leave (u m roomID : String) (addr : Nat) :
    Event.UnmarshalJSON Event.zero (some (memberEnvelope u m)) =
      .returned (decodedMember u m) none ∧
    ∃ r, (NewRoom roomID).UpdateState (some ⟨addr, decodedMember u m⟩) = .done r ∧
      r.GetStateEvent "m.room.member" u = some ⟨addr, decodedMember u m⟩ ∧
      r.GetMembershipState u = some "leave" := by
  refine ⟨rfl, ⟨roomID, some [("m.room.member", some [(u, some ⟨addr, decodedMember u m⟩)])]⟩,
    rfl, ?_, ?_⟩
  · simp [Room.GetStateEvent, index, mapLookup]
  · simp [Room.GetMembershipState, Room.GetStateEvent, index, mapLookup, decodedMember, RoomMember]

/-- C3: when the room holds no "m.room.member" event under the user id
(GetStateEvent returns nil), or holds one whose content is not of the type
`*event.RoomMember`, GetMembershipState returns "leave". -/
theorem C3_membership_defaults_to_leave (room : Room) (userID : String)
    (h : room.GetStateEvent "m.room.member" userID = none ∨
      ∃ e, room.GetStateEvent "m.room.member" userID = some e ∧
        ∀ c fields, e.deref.Content = some c → c.type ≠ .ptr (.struct "RoomMember" fields)) :
    room.GetMembershipState userID = some "leave" := by
  unfold Room.GetMembershipState
  rcases h with h | ⟨e, h, hc⟩
  · rw [h]
  · rw [h]
    split
    · rename_i e' heq
      cases heq
      split
      · next fields t hContent => exact absurd rfl (hc _ fields hContent)
      · next fields _ _ hContent => exact absurd rfl (hc _ fields hContent)
      · rfl
    · rfl

/-- C3, witness: a new room holds no membership event for "@b:x". -/
theorem C3_membership_defaults_to_leave_witness :
    (NewRoom "!r:x").GetStateEvent "m.room.member" "@b:x" = none ∧
    (NewRoom "!r:x").GetMembershipState "@b:x" = some "leave" :=
  ⟨rfl, C3_membership_defaults_to_leave (NewRoom "!r:x") "@b:x" (Or.inl rfl)⟩


/-! ## Decoding into `interface{}` -/

theorem convertNumber_fit (m e : Int) (h : float64Overflow m e = false) :
    convertNumber m e = (.float m e, none) := by
  simp [convertNumber, h]

mutual
theorem toAny_fit : ∀ j : JSON, numbersFit j = true → (toAny j).2 = none
  | .null, _ => by simp [toAny]
  | .bool _, _ => by simp [toAny]
  | .int n, h => by
    simp only [numbersFit, Bool.not_eq_true'] at h
    simp [toAny, convertNumber_fit _ _ h]
  | .dec m e, h => by
    simp only [numbersFit, Bool.not_eq_true'] at h
    simp [toAny, convertNumber_fit _ _ h]
  | .str _, _ => by simp [toAny]
  | .arr xs, h => by
    simp only [numbersFit] at h
    simp [toAny, toAnyList_fit xs h]
  | .obj kvs, h => by
    simp only [numbersFit] at h
    simp [toAny, toAnyMap_fit [] kvs h]
theorem toAnyList_fit : ∀ xs : List JSON, numbersFitList xs = true → (toAnyList xs).2 = none
  | [], _ => by simp [toAnyList]
  | x :: xs, h => by
    simp only [numbersFitList, Bool.and_eq_true] at h
    simp [toAnyList, toAny_fit x h.1, toAnyList_fit xs h.2, firstError]
theorem toAnyMap_fit : ∀ (acc : List (String × GoVal)) (kvs : List (String × JSON)),
    numbersFitMembers kvs = true → (toAnyMap acc kvs).2 = none
  | _, [], _ => by simp [toAnyMap]
  | acc, (k, v) :: rest, h => by
    simp only [numbersFitMembers, Bool.and_eq_true] at h
    simp [toAnyMap, toAny_fit v h.1, toAnyMap_fit _ rest h.2, firstError]
end

/-- The map decoded from an object holds, under each key, the value decoded
from the last member of that key, and keeps what it held under other keys. -/
theorem toAnyMap_lookup (k : String) : ∀ (kvs : List (String × JSON)) (acc : List (String × GoVal)),
    mapLookup k (toAnyMap acc kvs).1 =
      match member k kvs with
      | some v => some (toAny v).1
      | none => mapLookup k acc
  | [], acc => by simp [toAnyMap, member]
  | (k', v) :: rest, acc => by
    rw [toAnyMap]
    simp only [member]
    rw [toAnyMap_lookup k rest]
    cases hm : member k rest with
    | some v' => simp
    | none =>
      by_cases hk : k' = k
      · subst hk
        simp [mapLookup_mapAssign_self]
      · simp [hk, mapLookup_mapAssign_ne _ _ _ _ (Ne.symm hk)]


/-! ## The decoder on any envelope -/

/-- An envelope of a type without an arm of its own goes to the default arm of
the switch. -/
theorem UnmarshalJSON_default (e : Event) (data : Bytes) (je : GoVal)
    (hEnv : json.Unmarshal data jsonEvent (zeroValue jsonEvent) = (je, none))
    (hType : (je.field "Type").getStr ∉ registeredTags) :
    Event.UnmarshalJSON e data =
      decodeContent (e.withEnvelope je) (je.field "Content").getRaw mapStringInterface (.map []) := by
  simp only [registeredTags, List.mem_cons, List.mem_singleton, not_or, List.not_mem_nil,
    not_false_eq_true, and_true] at hType
  obtain ⟨h1, h2, h3, h4, h5, h6, h7, h8, h9, h10, h11, h12, h13, h14, h15, h16, h17, h18, h19,
    h20, h21, h22, h23, h24⟩ := hType
  simp only [Event.UnmarshalJSON, hEnv, h1, h2, h3, h4, h5, h6, h7, h8, h9, h10, h11, h12, h13,
    h14, h15, h16, h17, h18, h19, h20, h21, h22, h23, h24, if_false, Event.withEnvelope]

/-- An envelope of type "m.room.message" goes to the arm of messages. -/
theorem UnmarshalJSON_message (e : Event) (data : Bytes) (je : GoVal)
    (hEnv : json.Unmarshal data jsonEvent (zeroValue jsonEvent) = (je, none))
    (hType : (je.field "Type").getStr = eventRoomMessage) :
    Event.UnmarshalJSON e data =
      match (json.Unmarshal (je.field "Content").getRaw mapStringInterface (.map [])).2 with
      | some err => .fatal (e.withEnvelope je) err
      | none =>
        match mapLookup "msgtype"
          (json.Unmarshal (je.field "Content").getRaw mapStringInterface (.map [])).1.entries with
        | some (.str msgType) => decodeMessage (e.withEnvelope je) (je.field "Content").getRaw msgType
        | _ => .returned (e.withEnvelope je) none := by
  simp only [Event.UnmarshalJSON, hEnv, hType, Event.withEnvelope]
  rfl

/-- Decoding into an `interface{}` is the generic decoding. -/
theorem decode_iface (cur : GoVal) (j : JSON) : decode .iface cur j = toAny j := by
  cases j <;>
    simp [decode, toAny, storeLiteral, GoType.indirect, GoVal.indirect, GoVal.rewrap]

/-- Decoding the members of an object into a `map[string]interface{}`. -/
theorem decodeMap_iface : ∀ (kvs : List (String × JSON)) (acc : List (String × GoVal)),
    decodeMap .iface acc kvs = toAnyMap acc kvs
  | [], acc => by simp [decodeMap, toAnyMap]
  | (k, v) :: rest, acc => by
    rw [decodeMap, toAnyMap, decode_iface, decodeMap_iface rest]

/-- The generic map made of a JSON object. -/
theorem Unmarshal_object_into_map (kvs : List (String × JSON)) :
    json.Unmarshal (some (.obj kvs)) mapStringInterface (.map []) =
      (.map (toAnyMap [] kvs).1, (toAnyMap [] kvs).2) := by
  simp [json.Unmarshal, decode, mapStringInterface, GoType.indirect, GoVal.rewrap,
    GoVal.indirect, GoVal.entries, decodeMap_iface]


/-! ## The decoder: C4 to C7 -/

/-- An unknown msgtype is reported as an error when the content object decodes
into the generic map, that is when its numbers are within the range of
`float64`. -/
theorem UnmarshalJSON_unknown_msgtype (e : Event) (data : Bytes) (je : GoVal)
    (kvs : List (String × JSON)) (msgType : String)
    (hEnv : json.Unmarshal data jsonEvent (zeroValue jsonEvent) = (je, none))
    (hType : (je.field "Type").getStr = eventRoomMessage)
    (hContent : (je.field "Content").getRaw = some (.obj kvs))
    (hFit : numbersFitMembers kvs = true)
    (hMsg : member "msgtype" kvs = some (.str msgType))
    (hUnknown : msgType ∉ messageTags) :
    Event.UnmarshalJSON e data = .returned (e.withEnvelope je) (some (.unknownMsgtype msgType)) := by
  rw [UnmarshalJSON_message e data je hEnv hType, hContent, Unmarshal_object_into_map]
  have hLook := toAnyMap_lookup "msgtype" kvs []
  rw [hMsg] at hLook
  simp only [toAny] at hLook
  simp only [toAnyMap_fit [] kvs hFit, GoVal.entries, hLook]
  simp only [messageTags, messageText, messageEmote, messageNotice, messageImage, messageVideo,
    messageFile, messageLocation, messageAudio, List.mem_cons, List.mem_singleton, not_or,
    List.not_mem_nil, not_false_eq_true, and_true] at hUnknown
  obtain ⟨h1, h2, h3, h4, h5, h6, h7, h8⟩ := hUnknown
  simp only [decodeMessage, h1, h2, h3, h4, h5, h6, h7, h8, if_false]

/-- C4 (code at the failing input): for the message envelope whose content is
`{"msgtype":"m.bogus","n":1e400}` the content does not decode into the generic
map, and UnmarshalJSON ends the process with `log.Fatal`: it returns no error
to its caller. -/
theorem C4_unknown_msgtype_with_overflow_is_fatal :
    (Event.UnmarshalJSON Event.zero (some bogusEnvelope)).isFatal = true ∧
    (Event.UnmarshalJSON Event.zero (some bogusEnvelope)).error = none :=
  ⟨rfl, rfl⟩

/-- C5, counterexample: the envelope `{"type":"m.custom.foo","content":{"x":1e400}}`
has a type that is not registered and a JSON object as content, and
UnmarshalJSON returns an error; the content of the event stays nil. -/
theorem C5_overflow_in_fallback_is_an_error :
    (Event.UnmarshalJSON Event.zero (some customOverflowEnvelope)).error.isSome = true ∧
    (Event.UnmarshalJSON Event.zero (some customOverflowEnvelope)).succeeded = false ∧
    (Event.UnmarshalJSON Event.zero (some customOverflowEnvelope)).event.Content.isNone = true :=
  ⟨rfl, rfl, rfl⟩

/-- C5 (as amended): for every envelope that decodes into a jsonEvent without
error, whose type is not a registered tag and whose content is a JSON object
with every number literal within the range of `float64`, UnmarshalJSON returns
no error and sets Content to a `map[string]interface{}` that holds, under each
key, the decoded value of the member of that key of the content object (the
last one when the key is repeated), and nothing under any other key. -/
theorem C5_unknown_type_falls_back (e : Event) (data : Bytes) (je : GoVal)
    (kvs : List (String × JSON))
    (hEnv : json.Unmarshal data jsonEvent (zeroValue jsonEvent) = (je, none))
    (hType : (je.field "Type").getStr ∉ registeredTags)
    (hContent : (je.field "Content").getRaw = some (.obj kvs))
    (hFit : numbersFitMembers kvs = true) :
    ∃ m, Event.UnmarshalJSON e data =
        .returned { e.withEnvelope je with Content := some ⟨mapStringInterface, .map m⟩ } none ∧
      ∀ k, mapLookup k m = (member k kvs).map (fun v => (toAny v).1) := by
  refine ⟨(toAnyMap [] kvs).1, ?_, ?_⟩
  · rw [UnmarshalJSON_default e data je hEnv hType, hContent]
    simp only [decodeContent, Unmarshal_object_into_map, toAnyMap_fit [] kvs hFit]
  · intro k
    rw [toAnyMap_lookup k kvs []]
    cases member k kvs <;> simp [mapLookup]

/-- C5, witness: `{"type":"m.custom.foo","content":{"x":1}}` yields the map
that holds 1 under "x". -/
theorem C5_unknown_type_falls_back_witness :
    ∃ m, Event.UnmarshalJSON Event.zero (some customEnvelope) =
        .returned { Event.zero.withEnvelope (bareEnvelope "m.custom.foo" (.obj [("x", .int 1)])) with
          Content := some ⟨mapStringInterface, .map m⟩ } none ∧
      ∀ k, mapLookup k m = (member k [("x", JSON.int 1)]).map (fun v => (toAny v).1) :=
  C5_unknown_type_falls_back Event.zero (some customEnvelope)
    (bareEnvelope "m.custom.foo" (.obj [("x", .int 1)])) [("x", .int 1)] rfl (by decide) rfl
    (by decide)

/-- C6: for every string b, decoding the text envelope with body b succeeds and
sets Content to a TextMessage with Body = b and MsgType = "m.text" (Format and
FormattedBody empty); the envelope fields are those of the envelope. -/
theorem C6_text_message_decodes (e : Event) (b : String) :
    Event.UnmarshalJSON e (some (textEnvelope b)) =
      .returned
        { e with
          StateKey := none, Sender := "", Type_ := "m.room.message", Timestamp := 0, ID := "",
          RoomID := "",
          Content := some ⟨TextMessage, .struct [("Body", .str b), ("MsgType", .str "m.text"),
            ("Format", .str ""), ("FormattedBody", .str "")]⟩ }
        none :=
  rfl

/-- C7 (code at the failing input): a message envelope with msgtype "m.image"
is decoded into a NoticeMessage, which keeps the body and the msgtype and drops
the url and the info of the content. -/
theorem C7_image_decodes_as_notice :
    Event.UnmarshalJSON Event.zero (some imageEnvelope) =
      .returned
        { Event.zero with
          Type_ := "m.room.message",
          Content := some ⟨NoticeMessage,
            .struct [("Body", .str "pic"), ("MsgType", .str "m.image")]⟩ }
        none :=
  rfl


/-! ## The encoder: C8 to C10 -/

/-- No amount of fuel lets a MarshalJSON method of `events.go` return: each
calls `json.Marshal` on its own receiver, which calls the method again. -/
theorem MarshalJSON_never_returns (u : String → String) : ∀ fuel : Nat,
    (∀ m, (TextMessage.MarshalJSON u fuel m).2 = none) ∧
    (∀ m, (EmoteMessage.MarshalJSON u fuel m).2 = none) ∧
    (∀ m, (NoticeMessage.MarshalJSON u fuel m).2 = none) ∧
    (∀ m, (VideoMessage.MarshalJSON u fuel m).2 = none) ∧
    (∀ m, (ImageMessage.MarshalJSON u fuel m).2 = none) ∧
    (∀ m, (FileMessage.MarshalJSON u fuel m).2 = none) ∧
    (∀ m, (LocationMessage.MarshalJSON u fuel m).2 = none) ∧
    (∀ m, (AudioMessage.MarshalJSON u fuel m).2 = none) ∧
    (∀ name fields m, hasMarshalJSON name = true →
      (json.Marshal u fuel ⟨.ptr (.struct name fields), .ptr m⟩).2 = none) := by
  intro fuel
  induction fuel with
  | zero =>
    refine ⟨?_, ?_, ?_, ?_, ?_, ?_, ?_, ?_, ?_⟩
    all_goals first
      | (intro m; rfl)
      | (intro name fields m h; simp [json.Marshal, h])
  | succ n ih =>
    obtain ⟨h1, h2, h3, h4, h5, h6, h7, h8, h9⟩ := ih
    refine ⟨?_, ?_, ?_, ?_, ?_, ?_, ?_, ?_, ?_⟩
    · intro m; rw [TextMessage.MarshalJSON]; exact h9 _ _ _ rfl
    · intro m; rw [EmoteMessage.MarshalJSON]; exact h9 _ _ _ rfl
    · intro m; rw [NoticeMessage.MarshalJSON]; exact h9 _ _ _ rfl
    · intro m; rw [VideoMessage.MarshalJSON]; exact h9 _ _ _ rfl
    · intro m; rw [ImageMessage.MarshalJSON]; exact h9 _ _ _ rfl
    · intro m; rw [FileMessage.MarshalJSON]; exact h9 _ _ _ rfl
    · intro m; rw [LocationMessage.MarshalJSON]; exact h9 _ _ _ rfl
    · intro m; rw [AudioMessage.MarshalJSON]; exact h9 _ _ _ rfl
    · intro name fields m h
      simp only [hasMarshalJSON, Bool.or_eq_true, decide_eq_true_eq] at h
      rcases h with ((((((h | h) | h) | h) | h) | h) | h) | h <;> subst h <;>
        simp [json.Marshal, h1, h2, h3, h4, h5, h6, h7, h8]

/-- C8 (code at the failing input): a NoticeMessage held by value is encoded
without a call of MarshalJSON, so the msgtype written is the one the caller
set ("bogus", not "m.notice"); held by pointer, the encoding does not return
for any amount of fuel. -/
theorem C8_msgtype_not_injected (unescapeString : String → String) (fuel : Nat) :
    (Event.Marshal unescapeString fuel
        (messageEvent ⟨NoticeMessage, noticeMessage "hi" "bogus"⟩)).2 =
      some (.obj [("sender", .str "@a:x"), ("type", .str "m.room.message"),
        ("origin_server_ts", .int 0), ("event_id", .str ""), ("room_id", .str ""),
        ("content", .obj [("body", .str "hi"), ("msgtype", .str "bogus")])]) ∧
    (Event.Marshal unescapeString fuel
        (messageEvent ⟨.ptr NoticeMessage, .ptr (noticeMessage "hi" "bogus")⟩)).2 = none := by
  constructor
  · cases fuel <;> rfl
  · simp only [Event.Marshal, messageEvent, NoticeMessage]
    rw [(MarshalJSON_never_returns unescapeString fuel).2.2.2.2.2.2.2.2 "NoticeMessage" _ _ rfl]
    rfl

theorem TextMessage_MarshalJSON_zero (u : String → String) (b t f fb : String) :
    TextMessage.MarshalJSON u 0 (textMessage b t f fb) =
      (textMessage (bodyAfterMarshal u b f fb) messageText f fb, none) := by
  by_cases hf : f = ""
  · subst hf
    simp [TextMessage.MarshalJSON, textMessage, GoVal.setField, GoVal.field, mapAssign, mapLookup,
      GoVal.getStr, bodyAfterMarshal]
  · by_cases hh : f = formatOrgMatrixCustomHtml
    · subst hh
      simp [TextMessage.MarshalJSON, textMessage, GoVal.setField, GoVal.field, mapAssign,
        mapLookup, GoVal.getStr, bodyAfterMarshal, TextMessage.body, formatOrgMatrixCustomHtml]
    · simp [TextMessage.MarshalJSON, textMessage, GoVal.setField, GoVal.field, mapAssign,
        mapLookup, GoVal.getStr, bodyAfterMarshal, TextMessage.body, hf, hh]

theorem TextMessage_MarshalJSON_succ (u : String → String) (n : Nat) (b t f fb : String) :
    TextMessage.MarshalJSON u (n + 1) (textMessage b t f fb) =
      ((json.Marshal u n ⟨.ptr TextMessage,
          .ptr (textMessage (bodyAfterMarshal u b f fb) messageText f fb)⟩).1.val.pointee,
        (json.Marshal u n ⟨.ptr TextMessage,
          .ptr (textMessage (bodyAfterMarshal u b f fb) messageText f fb)⟩).2) := by
  have h := TextMessage_MarshalJSON_zero u b t f fb
  rw [TextMessage.MarshalJSON] at h
  rw [TextMessage.MarshalJSON]
  simp only [Prod.mk.injEq, and_true] at h
  simp only [h]

theorem bodyAfterMarshal_idem (u : String → String) (b f fb : String) :
    bodyAfterMarshal u (bodyAfterMarshal u b f fb) f fb = bodyAfterMarshal u b f fb := by
  unfold bodyAfterMarshal
  split_ifs <;> rfl

/-- The receiver `(*TextMessage).MarshalJSON` leaves behind, whatever the fuel. -/
theorem TextMessage_MarshalJSON_receiver (u : String → String) (f fb : String) (n : Nat) :
    (∀ b t, (TextMessage.MarshalJSON u n (textMessage b t f fb)).1 =
        textMessage (bodyAfterMarshal u b f fb) messageText f fb) ∧
    (∀ b t, (TextMessage.MarshalJSON u (n + 1) (textMessage b t f fb)).1 =
        textMessage (bodyAfterMarshal u b f fb) messageText f fb) := by
  induction n with
  | zero =>
    refine ⟨fun b t => by rw [TextMessage_MarshalJSON_zero], fun b t => ?_⟩
    rw [TextMessage_MarshalJSON_succ]
    rfl
  | succ n ih =>
    refine ⟨ih.2, fun b t => ?_⟩
    rw [TextMessage_MarshalJSON_succ]
    have h := ih.1 (bodyAfterMarshal u b f fb) messageText
    rw [bodyAfterMarshal_idem] at h
    simp [json.Marshal, TextMessage, GoVal.pointee]
    exact h

/-- C9, counterexample: a TextMessage with the formatted body `<b>x</b>` and an
empty Format keeps the Body the caller set ("plain") through MarshalJSON,
while the formatted body without its tags is "x". -/
theorem C9_body_kept_when_format_empty :
    (textMessage "plain" "" "" "<b>x</b>").field "FormattedBody" = .str "<b>x</b>" ∧
    (TextMessage.MarshalJSON unescapePlain 8 (textMessage "plain" "" "" "<b>x</b>")).1.field "Body" =
      .str "plain" ∧
    unescapePlain (String.mk (removeTags none "<b>x</b>".data)) = "x" :=
  ⟨rfl, rfl, rfl⟩

/-- C9 (as amended): for every TextMessage whose Format is
"org.matrix.custom.html", `(*TextMessage).MarshalJSON` sets the Body of its
receiver to `html.UnescapeString` of the FormattedBody with every match of
`<[^<]+?>` removed (and the MsgType to "m.text"), whatever the Body was, and
leaves Format and FormattedBody as they were. -/
theorem C9_body_derived_from_html (unescapeString : String → String) (fuel : Nat)
    (b t fb : String) :
    (TextMessage.MarshalJSON unescapeString fuel
        (textMessage b t formatOrgMatrixCustomHtml fb)).1 =
      textMessage (unescapeString (String.mk (removeTags none fb.data))) messageText
        formatOrgMatrixCustomHtml fb := by
  rw [(TextMessage_MarshalJSON_receiver unescapeString formatOrgMatrixCustomHtml fb fuel).1 b t]
  rfl

/-- C10 (code at the failing input): the redaction event is encoded with its
`redacts` member, and decoding that document gives an event whose Redacts is
empty: jsonEvent has no field for it. Every other field comes back. -/
theorem C10_redacts_lost_in_round_trip (unescapeString : String → String) (fuel : Nat) :
    (Event.Marshal unescapeString fuel redactionEvent).2 = some redactionJSON ∧
    Event.UnmarshalJSON Event.zero (some redactionJSON) =
      .returned { redactionEvent with Redacts := "" } none ∧
    redactionEvent.Redacts = "$ev1" := by
  refine ⟨?_, rfl, rfl⟩
  cases fuel <;> rfl

/-! ## The envelope fields: C11 to C14 -/

theorem field_setField_ne (x : GoVal) (n n' : String) (v : GoVal) (h : n ≠ n') :
    (x.setField n' v).field n = x.field n := by
  cases x <;> simp [GoVal.setField, GoVal.field, mapLookup_mapAssign_ne _ _ _ _ h]

theorem field_setField_self (fields : List (String × GoVal)) (n : String) (v : GoVal) :
    ((GoVal.struct fields).setField n v).field n = v := by
  simp [GoVal.setField, GoVal.field, mapLookup_mapAssign_self]

theorem firstError_eq_none (a b : Option Error) :
    firstError a b = none ↔ a = none ∧ b = none := by
  cases a <;> simp [firstError]

/-- The field a key is stored in is a field of the struct whose key is the
key up to case. -/
theorem findField_some (fields : List (Tag × GoType)) (k : String) (f : Tag × GoType)
    (h : findField fields k = some f) : f ∈ fields ∧ foldName f.1.key = foldName k := by
  unfold findField at h
  cases h1 : fields.find? (fun f => f.1.key == k) with
  | some g =>
    rw [h1] at h
    cases h
    have hp := List.find?_some h1
    simp only [beq_iff_eq] at hp
    exact ⟨List.mem_of_find?_eq_some h1, by rw [hp]⟩
  | none =>
    rw [h1] at h
    have hp := List.find?_some h
    simp only [beq_iff_eq] at hp
    exact ⟨List.mem_of_find?_eq_some h, hp⟩

/-- In a struct whose keys differ up to case, a key that is the key of a field
up to case is stored in that field. -/
theorem findField_of_matches (fields : List (Tag × GoType))
    (hKeys : ∀ a ∈ fields, ∀ b ∈ fields, foldName a.1.key = foldName b.1.key → a = b)
    (f0 : Tag × GoType) (hMem : f0 ∈ fields) (k : String)
    (hk : matchesKey f0.1.key k = true) : findField fields k = some f0 := by
  simp only [matchesKey, beq_iff_eq] at hk
  cases h : findField fields k with
  | some f =>
    obtain ⟨hf, hfold⟩ := findField_some fields k f h
    rw [hKeys f hf f0 hMem (by rw [hfold, hk])]
  | none =>
    exfalso
    unfold findField at h
    cases h1 : fields.find? (fun f => f.1.key == k) with
    | some g => rw [h1] at h; cases h
    | none =>
      rw [h1] at h
      have hn := List.find?_eq_none.mp h f0 hMem
      simp [hk] at hn

/-- A member whose key is not the key of the field leaves the field alone. -/
theorem decodeFields_field_absent (fields : List (Tag × GoType))
    (hKeys : ∀ a ∈ fields, ∀ b ∈ fields, foldName a.1.key = foldName b.1.key → a = b)
    (hNames : ∀ a ∈ fields, ∀ b ∈ fields, a.1.name = b.1.name → a = b)
    (f0 : Tag × GoType) (hMem : f0 ∈ fields) :
    ∀ (kvs : List (String × JSON)) (cur : GoVal), envelopeMember f0.1.key kvs = none →
      (decodeFields fields cur kvs).1.field f0.1.name = cur.field f0.1.name
  | [], cur, _ => by simp [decodeFields]
  | (k, v) :: rest, cur, h => by
    simp only [envelopeMember] at h
    cases hr : envelopeMember f0.1.key rest with
    | some v' => rw [hr] at h; cases h
    | none =>
      rw [hr] at h
      have hk : matchesKey f0.1.key k = false := by
        cases hm : matchesKey f0.1.key k with
        | true => rw [hm] at h; simp at h
        | false => rfl
      rw [decodeFields]
      cases hf : findField fields k with
      | none => exact decodeFields_field_absent fields hKeys hNames f0 hMem rest cur hr
      | some f =>
        simp only
        rw [decodeFields_field_absent fields hKeys hNames f0 hMem rest _ hr]
        apply field_setField_ne
        intro hname
        obtain ⟨hfm, hfold⟩ := findField_some fields k f hf
        have : f0 = f := hNames f0 hMem f hfm hname
        subst this
        simp [matchesKey, hfold] at hk

/-- When the members decode without error, the field holds what the last
member of its key decoded to. -/
theorem decodeFields_field_present (fields : List (Tag × GoType))
    (hKeys : ∀ a ∈ fields, ∀ b ∈ fields, foldName a.1.key = foldName b.1.key → a = b)
    (hNames : ∀ a ∈ fields, ∀ b ∈ fields, a.1.name = b.1.name → a = b)
    (f0 : Tag × GoType) (hMem : f0 ∈ fields) (v : JSON) :
    ∀ (kvs : List (String × JSON)) (cur : List (String × GoVal)),
      envelopeMember f0.1.key kvs = some v →
      (decodeFields fields (.struct cur) kvs).2 = none →
      ∃ c, (decodeFields fields (.struct cur) kvs).1.field f0.1.name = (decode f0.2 c v).1 ∧
        (decode f0.2 c v).2 = none
  | [], _, h, _ => by simp [envelopeMember] at h
  | (k, v') :: rest, cur, h, hErr => by
    simp only [envelopeMember] at h
    rw [decodeFields] at hErr ⊢
    cases hr : envelopeMember f0.1.key rest with
    | some v'' =>
      rw [hr] at h
      cases h
      cases hf : findField fields k with
      | none =>
        rw [hf] at hErr
        exact decodeFields_field_present fields hKeys hNames f0 hMem v rest cur hr hErr
      | some f =>
        rw [hf] at hErr
        simp only [firstError_eq_none] at hErr
        exact decodeFields_field_present fields hKeys hNames f0 hMem v rest _ hr hErr.2
    | none =>
      rw [hr] at h
      have hk : matchesKey f0.1.key k = true := by
        cases hm : matchesKey f0.1.key k with
        | true => rfl
        | false => rw [hm] at h; simp at h
      rw [hk] at h
      simp only [if_true, Option.some.injEq] at h
      subst h
      rw [findField_of_matches fields hKeys f0 hMem k hk] at hErr ⊢
      simp only [firstError_eq_none] at hErr
      refine ⟨(GoVal.struct cur).field f0.1.name, ?_, hErr.1⟩
      simp only
      rw [decodeFields_field_absent fields hKeys hNames f0 hMem rest _ hr]
      exact field_setField_self _ _ _

theorem jsonEvent_keys_differ : ∀ a ∈ jsonEventFields, ∀ b ∈ jsonEventFields,
    foldName a.1.key = foldName b.1.key → a = b := by
  intro a ha b hb h
  simp only [jsonEventFields, jsonEvent, GoType.fields, fld, fldOmitempty, List.mem_cons,
    List.mem_singleton, List.not_mem_nil, or_false] at ha hb
  rcases ha with rfl | rfl | rfl | rfl | rfl | rfl | rfl <;>
    rcases hb with rfl | rfl | rfl | rfl | rfl | rfl | rfl <;>
    first
      | rfl
      | exact absurd h (by decide)

theorem jsonEvent_names_differ : ∀ a ∈ jsonEventFields, ∀ b ∈ jsonEventFields,
    a.1.name = b.1.name → a = b := by
  intro a ha b hb h
  simp only [jsonEventFields, jsonEvent, GoType.fields, fld, fldOmitempty, List.mem_cons,
    List.mem_singleton, List.not_mem_nil, or_false] at ha hb
  rcases ha with rfl | rfl | rfl | rfl | rfl | rfl | rfl <;>
    rcases hb with rfl | rfl | rfl | rfl | rfl | rfl | rfl <;>
    first
      | rfl
      | exact absurd h (by decide)

/-- Decoding an object into a jsonEvent is the decoding of its members. -/
theorem Unmarshal_jsonEvent_obj (kvs : List (String × JSON)) :
    json.Unmarshal (some (.obj kvs)) jsonEvent (zeroValue jsonEvent) =
      decodeFields jsonEventFields (zeroValue jsonEvent) kvs := by
  simp [json.Unmarshal, decode, jsonEvent, jsonEventFields, GoType.indirect, GoVal.rewrap,
    GoVal.indirect, GoType.fields]

theorem decodeContent_sameEnvelope (e : Event) (content : Bytes) (t : GoType) (x0 : GoVal) :
    (decodeContent e content t x0).event.sameEnvelope e := by
  simp only [decodeContent]
  cases h : (json.Unmarshal content t x0).2 <;> exact ⟨rfl, rfl, rfl, rfl, rfl, rfl, rfl⟩

theorem decodeMessage_sameEnvelope (e : Event) (content : Bytes) (msgType : String) :
    (decodeMessage e content msgType).event.sameEnvelope e := by
  unfold decodeMessage
  split_ifs <;>
    first
      | exact decodeContent_sameEnvelope _ _ _ _
      | simp [Outcome.event, Event.sameEnvelope]

/-- When the envelope does not decode, the error is returned and the receiver
is left as it was. -/
theorem UnmarshalJSON_envelope_error (e : Event) (data : Bytes) (err : Error)
    (h : (json.Unmarshal data jsonEvent (zeroValue jsonEvent)).2 = some err) :
    Event.UnmarshalJSON e data = .returned e (some err) := by
  simp only [Event.UnmarshalJSON, h]


/-- The shape of a tag that is none of the registered ones is the fallback
mapping. -/
theorem registeredShape_fallback (ty : String) (h : ∀ entry ∈ registry, ty ≠ entry.1) :
    registeredShape ty = mapStringInterface := by
  have hNone : ∀ l : List (String × GoType), (∀ entry ∈ l, ty ≠ entry.1) → mapLookup ty l = none := by
    intro l
    induction l with
    | nil => intro _; rfl
    | cons x xs ih =>
      intro hl
      obtain ⟨k, v⟩ := x
      have hk : k ≠ ty := fun hEq => hl (k, v) (List.mem_cons_self _ _) hEq.symm
      simp only [mapLookup, hk, if_false]
      exact ih (fun entry hMem => hl entry (List.mem_cons_of_mem _ hMem))
  simp [registeredShape, hNone registry h]

/-- The switch of UnmarshalJSON is the lookup in the registry: an envelope
whose type is not the message tag is decoded into the shape the registry
assigns to its type, or into the fallback mapping. -/
theorem UnmarshalJSON_registered (e : Event) (data : Bytes) (je : GoVal)
    (hEnv : json.Unmarshal data jsonEvent (zeroValue jsonEvent) = (je, none))
    (hType : (je.field "Type").getStr ≠ eventRoomMessage) :
    Event.UnmarshalJSON e data =
      decodeContent (e.withEnvelope je) (je.field "Content").getRaw
        (registeredShape (je.field "Type").getStr)
        (freshValue (registeredShape (je.field "Type").getStr)) := by
  unfold Event.UnmarshalJSON
  rw [hEnv]
  dsimp only
  by_cases h0 : (je.field "Type").getStr = eventRoomAliases
  · rw [if_pos h0]
    have hShape : registeredShape (je.field "Type").getStr = RoomAliases := by rw [h0]; rfl
    rw [hShape]; rfl
  rw [if_neg h0]
  by_cases h1 : (je.field "Type").getStr = eventRoomCanonicalAlias
  · rw [if_pos h1]
    have hShape : registeredShape (je.field "Type").getStr = RoomCanonicalAlias := by rw [h1]; rfl
    rw [hShape]; rfl
  rw [if_neg h1]
  by_cases h2 : (je.field "Type").getStr = eventRoomCreate
  · rw [if_pos h2]
    have hShape : registeredShape (je.field "Type").getStr = RoomCreate := by rw [h2]; rfl
    rw [hShape]; rfl
  rw [if_neg h2]
  by_cases h3 : (je.field "Type").getStr = eventRoomJoinRules
  · rw [if_pos h3]
    have hShape : registeredShape (je.field "Type").getStr = RoomJoinRules := by rw [h3]; rfl
    rw [hShape]; rfl
  rw [if_neg h3]
  by_cases h4 : (je.field "Type").getStr = eventRoomMember
  · rw [if_pos h4]
    have hShape : registeredShape (je.field "Type").getStr = RoomMember := by rw [h4]; rfl
    rw [hShape]; rfl
  rw [if_neg h4]
  by_cases h5 : (je.field "Type").getStr = eventRoomPowerLevels
  · rw [if_pos h5]
    have hShape : registeredShape (je.field "Type").getStr = RoomPowerLevels := by rw [h5]; rfl
    rw [hShape]; rfl
  rw [if_neg h5]
  by_cases h6 : (je.field "Type").getStr = eventRoomRedaction
  · rw [if_pos h6]
    have hShape : registeredShape (je.field "Type").getStr = RoomRedaction := by rw [h6]; rfl
    rw [hShape]; rfl
  rw [if_neg h6]
  rw [if_neg hType]
  by_cases h8 : (je.field "Type").getStr = eventRoomMessageFeedback
  · rw [if_pos h8]
    have hShape : registeredShape (je.field "Type").getStr = RoomMessageFeedback := by rw [h8]; rfl
    rw [hShape]; rfl
  rw [if_neg h8]
  by_cases h9 : (je.field "Type").getStr = eventRoomName
  · rw [if_pos h9]
    have hShape : registeredShape (je.field "Type").getStr = RoomName := by rw [h9]; rfl
    rw [hShape]; rfl
  rw [if_neg h9]
  by_cases h10 : (je.field "Type").getStr = eventRoomTopic
  · rw [if_pos h10]
    have hShape : registeredShape (je.field "Type").getStr = RoomTopic := by rw [h10]; rfl
    rw [hShape]; rfl
  rw [if_neg h10]
  by_cases h11 : (je.field "Type").getStr = eventRoomAvatar
  · rw [if_pos h11]
    have hShape : registeredShape (je.field "Type").getStr = RoomAvatar := by rw [h11]; rfl
    rw [hShape]; rfl
  rw [if_neg h11]
  by_cases h12 : (je.field "Type").getStr = eventRoomPinnedEvents
  · rw [if_pos h12]
    have hShape : registeredShape (je.field "Type").getStr = RoomPinnedEvents := by rw [h12]; rfl
    rw [hShape]; rfl
  rw [if_neg h12]
  by_cases h13 : (je.field "Type").getStr = eventCallInvite
  · rw [if_pos h13]
    have hShape : registeredShape (je.field "Type").getStr = CallInvite := by rw [h13]; rfl
    rw [hShape]; rfl
  rw [if_neg h13]
  by_cases h14 : (je.field "Type").getStr = eventCallCandidates
  · rw [if_pos h14]
    have hShape : registeredShape (je.field "Type").getStr = CallCandidates := by rw [h14]; rfl
    rw [hShape]; rfl
  rw [if_neg h14]
  by_cases h15 : (je.field "Type").getStr = eventCallAnswer
  · rw [if_pos h15]
    have hShape : registeredShape (je.field "Type").getStr = CallAnswer := by rw [h15]; rfl
    rw [hShape]; rfl
  rw [if_neg h15]
  by_cases h16 : (je.field "Type").getStr = eventCallHangup
  · rw [if_pos h16]
    have hShape : registeredShape (je.field "Type").getStr = CallHangup := by rw [h16]; rfl
    rw [hShape]; rfl
  rw [if_neg h16]
  by_cases h17 : (je.field "Type").getStr = eventTyping
  · rw [if_pos h17]
    have hShape : registeredShape (je.field "Type").getStr = Typing := by rw [h17]; rfl
    rw [hShape]; rfl
  rw [if_neg h17]
  by_cases h18 : (je.field "Type").getStr = eventReceipt
  · rw [if_pos h18]
    have hShape : registeredShape (je.field "Type").getStr = Receipt := by rw [h18]; rfl
    rw [hShape]; rfl
  rw [if_neg h18]
  by_cases h19 : (je.field "Type").getStr = eventPresence
  · rw [if_pos h19]
    have hShape : registeredShape (je.field "Type").getStr = Presence := by rw [h19]; rfl
    rw [hShape]; rfl
  rw [if_neg h19]
  by_cases h20 : (je.field "Type").getStr = eventRoomHistoryVisibility
  · rw [if_pos h20]
    have hShape : registeredShape (je.field "Type").getStr = RoomHistoryVisibility := by rw [h20]; rfl
    rw [hShape]; rfl
  rw [if_neg h20]
  by_cases h21 : (je.field "Type").getStr = eventRoomThirdPartyInvite
  · rw [if_pos h21]
    have hShape : registeredShape (je.field "Type").getStr = RoomThirdPartyInvite := by rw [h21]; rfl
    rw [hShape]; rfl
  rw [if_neg h21]
  by_cases h22 : (je.field "Type").getStr = eventRoomGuestAccess
  · rw [if_pos h22]
    have hShape : registeredShape (je.field "Type").getStr = RoomAliases := by rw [h22]; rfl
    rw [hShape]; rfl
  rw [if_neg h22]
  by_cases h23 : (je.field "Type").getStr = eventDirect
  · rw [if_pos h23]
    have hShape : registeredShape (je.field "Type").getStr = RoomAliases := by rw [h23]; rfl
    rw [hShape]; rfl
  rw [if_neg h23]
  have hShape : registeredShape (je.field "Type").getStr = mapStringInterface := by
    apply registeredShape_fallback
    intro entry hMem
    simp only [registry, List.mem_cons, List.mem_singleton, List.not_mem_nil, or_false] at hMem
    rcases hMem with rfl | rfl | rfl | rfl | rfl | rfl | rfl | rfl | rfl | rfl | rfl | rfl | rfl | rfl | rfl | rfl | rfl | rfl | rfl | rfl | rfl | rfl | rfl <;> assumption
  rw [hShape]
  rfl

/-- When the envelope decodes, every field of the receiver but Content is
the receiver's with the envelope fields of the jsonEvent copied in, however
the call ends. -/
theorem UnmarshalJSON_sameEnvelope (e : Event) (data : Bytes) (je : GoVal)
    (hEnv : json.Unmarshal data jsonEvent (zeroValue jsonEvent) = (je, none)) :
    (Event.UnmarshalJSON e data).event.sameEnvelope (e.withEnvelope je) := by
  by_cases hT : (je.field "Type").getStr = eventRoomMessage
  · rw [UnmarshalJSON_message e data je hEnv hT]
    split
    · exact ⟨rfl, rfl, rfl, rfl, rfl, rfl, rfl⟩
    · split
      · exact decodeMessage_sameEnvelope _ _ _
      · exact ⟨rfl, rfl, rfl, rfl, rfl, rfl, rfl⟩
  · rw [UnmarshalJSON_registered e data je hEnv hT]
    exact decodeContent_sameEnvelope _ _ _ _

/-- Only a JSON object is decoded without error. -/
theorem UnmarshalJSON_ok_is_object (e e' : Event) (data : Bytes)
    (h : Event.UnmarshalJSON e data = .returned e' none) :
    ∃ kvs, data = some (.obj kvs) := by
  cases data with
  | none => simp [Event.UnmarshalJSON, json.Unmarshal] at h
  | some j =>
    cases j with
    | obj kvs => exact ⟨kvs, rfl⟩
    | null =>
      exfalso
      have hEnv : json.Unmarshal (some .null) jsonEvent (zeroValue jsonEvent) =
          (zeroValue jsonEvent, none) := rfl
      rw [UnmarshalJSON_registered e _ _ hEnv (by decide)] at h
      simp [decodeContent, json.Unmarshal, zeroValue, jsonEvent, zeroFields, fld, fldOmitempty,
        GoVal.field, mapLookup, GoVal.getRaw] at h
    | bool b =>
      exfalso
      rw [UnmarshalJSON_envelope_error e (some (.bool b)) (.unmarshalTypeError "bool" "jsonEvent") rfl] at h
      cases h
    | int n =>
      exfalso
      rw [UnmarshalJSON_envelope_error e (some (.int n)) (.unmarshalTypeError "number" "jsonEvent") rfl] at h
      cases h
    | dec m x =>
      exfalso
      rw [UnmarshalJSON_envelope_error e (some (.dec m x)) (.unmarshalTypeError "number" "jsonEvent") rfl] at h
      cases h
    | str s =>
      exfalso
      rw [UnmarshalJSON_envelope_error e (some (.str s)) (.unmarshalTypeError "string" "jsonEvent") rfl] at h
      cases h
    | arr xs =>
      exfalso
      rw [UnmarshalJSON_envelope_error e (some (.arr xs)) (.unmarshalTypeError "array" "jsonEvent") rfl] at h
      cases h

/-- An object decoded without error: the jsonEvent it decodes to, and the
fields of the event. -/
theorem UnmarshalJSON_ok_envelope (e e' : Event) (kvs : List (String × JSON))
    (h : Event.UnmarshalJSON e (some (.obj kvs)) = .returned e' none) :
    ∃ je, decodeFields jsonEventFields (zeroValue jsonEvent) kvs = (je, none) ∧
      e'.sameEnvelope (e.withEnvelope je) := by
  cases hd : decodeFields jsonEventFields (zeroValue jsonEvent) kvs with
  | mk je err =>
    have hEnv : json.Unmarshal (some (.obj kvs)) jsonEvent (zeroValue jsonEvent) = (je, err) := by
      rw [Unmarshal_jsonEvent_obj, hd]
    cases err with
    | some err =>
      rw [UnmarshalJSON_envelope_error e _ err (by rw [hEnv])] at h
      cases h
    | none =>
      refine ⟨je, rfl, ?_⟩
      have hs := UnmarshalJSON_sameEnvelope e _ je hEnv
      rw [h] at hs
      exact hs

theorem jsonEvent_field_present (f0 : Tag × GoType) (hMem : f0 ∈ jsonEventFields)
    (kvs : List (String × JSON)) (je : GoVal) (v : JSON)
    (hd : decodeFields jsonEventFields (zeroValue jsonEvent) kvs = (je, none))
    (hm : envelopeMember f0.1.key kvs = some v) :
    ∃ c, je.field f0.1.name = (decode f0.2 c v).1 ∧ (decode f0.2 c v).2 = none := by
  have hz : zeroValue jsonEvent = GoVal.struct (zeroFields jsonEventFields) := rfl
  rw [hz] at hd
  have h := decodeFields_field_present jsonEventFields jsonEvent_keys_differ
    jsonEvent_names_differ f0 hMem v kvs _ hm (by rw [hd])
  rw [hd] at h
  exact h

theorem jsonEvent_field_absent (f0 : Tag × GoType) (hMem : f0 ∈ jsonEventFields)
    (kvs : List (String × JSON)) (je : GoVal)
    (hd : decodeFields jsonEventFields (zeroValue jsonEvent) kvs = (je, none))
    (hm : envelopeMember f0.1.key kvs = none) :
    je.field f0.1.name = (zeroValue jsonEvent).field f0.1.name := by
  have h := decodeFields_field_absent jsonEventFields jsonEvent_keys_differ
    jsonEvent_names_differ f0 hMem kvs (zeroValue jsonEvent) hm
  rw [hd] at h
  exact h

theorem decode_string_str (c : GoVal) (s : String) : decode .string c (.str s) = (.str s, none) := by
  simp [decode, storeLiteral, GoType.indirect, GoVal.indirect, GoVal.rewrap]

theorem decode_ptr_string_str (c : GoVal) (s : String) :
    decode (.ptr .string) c (.str s) = (.ptr (.str s), none) := by
  simp [decode, storeLiteral, GoType.indirect, GoVal.rewrap]

theorem decode_int64_int (c : GoVal) (n : Int) (h : (decode .int64 c (.int n)).2 = none) :
    (decode .int64 c (.int n)).1 = .int n := by
  simp only [decode, storeLiteral, GoType.indirect, GoVal.indirect, GoVal.rewrap] at h ⊢
  split_ifs at h ⊢ with hr
  · rfl
  · simp [typeError] at h

/-- A string field of the envelope: the string of the last member of its key,
or the empty string when no member has its key. -/
theorem jsonEvent_string_field (name key : String)
    (hMem : fld name key .string ∈ jsonEventFields)
    (kvs : List (String × JSON)) (je : GoVal)
    (hd : decodeFields jsonEventFields (zeroValue jsonEvent) kvs = (je, none)) :
    (∀ s, envelopeMember key kvs = some (.str s) → (je.field name).getStr = s) ∧
    (envelopeMember key kvs = none →
      (je.field name).getStr = ((zeroValue jsonEvent).field name).getStr) := by
  constructor
  · intro s hm
    obtain ⟨c, hc, _⟩ := jsonEvent_field_present (fld name key .string) hMem kvs je (.str s) hd hm
    simp only [fld] at hc
    rw [hc, decode_string_str]
    rfl
  · intro hm
    have h := jsonEvent_field_absent (fld name key .string) hMem kvs je hd hm
    simp only [fld] at h
    rw [h]

/-- C11 (code at the failing input, and for every call): UnmarshalJSON never
assigns Redacts. The receiver keeps the Redacts it had, so the event decoded
into a new Event from an envelope with `"redacts":"$ev1"` has an empty
Redacts. -/
theorem C11_redacts_never_decoded (e : Event) (data : Bytes) :
    (Event.UnmarshalJSON e data).event.Redacts = e.Redacts ∧
    Event.UnmarshalJSON Event.zero (some redactsEnvelope) =
      .returned
        { Event.zero with
          Type_ := "m.room.redaction", Redacts := "",
          Content := some ⟨RoomRedaction, .struct [("Reason", .str "spam")]⟩ }
        none := by
  refine ⟨?_, rfl⟩
  cases hd : json.Unmarshal data jsonEvent (zeroValue jsonEvent) with
  | mk je err =>
    cases err with
    | some err => rw [UnmarshalJSON_envelope_error e data err (by rw [hd])]; rfl
    | none => exact (UnmarshalJSON_sameEnvelope e data je hd).2.2.2.2.2.2

/-- C12: for every input that UnmarshalJSON decodes without error, the input
is a JSON object, and the Sender, Type, ID and RoomID of the event are the
strings, and the Timestamp the integer, that the envelope gives for sender,
type, event_id, room_id and origin_server_ts: the value of the last member
with that key (keys compared up to case, as `encoding/json` does), and the
zero value when no member has the key. Nothing is assumed of the content. -/
theorem C12_envelope_fields_copied (e e' : Event) (data : Bytes)
    (h : Event.UnmarshalJSON e data = .returned e' none) :
    ∃ kvs, data = some (.obj kvs) ∧
      (∀ s, envelopeMember "sender" kvs = some (.str s) → e'.Sender = s) ∧
      (envelopeMember "sender" kvs = none → e'.Sender = "") ∧
      (∀ s, envelopeMember "type" kvs = some (.str s) → e'.Type_ = s) ∧
      (envelopeMember "type" kvs = none → e'.Type_ = "") ∧
      (∀ n, envelopeMember "origin_server_ts" kvs = some (.int n) → e'.Timestamp = n) ∧
      (envelopeMember "origin_server_ts" kvs = none → e'.Timestamp = 0) ∧
      (∀ s, envelopeMember "event_id" kvs = some (.str s) → e'.ID = s) ∧
      (envelopeMember "event_id" kvs = none → e'.ID = "") ∧
      (∀ s, envelopeMember "room_id" kvs = some (.str s) → e'.RoomID = s) ∧
      (envelopeMember "room_id" kvs = none → e'.RoomID = "") := by
  obtain ⟨kvs, rfl⟩ := UnmarshalJSON_ok_is_object e e' data h
  obtain ⟨je, hd, _, hSender, hType, hTs, hID, hRoom, _⟩ := UnmarshalJSON_ok_envelope e e' kvs h
  have hS := jsonEvent_string_field "Sender" "sender" (by simp [jsonEventFields, jsonEvent, GoType.fields]) kvs je hd
  have hT := jsonEvent_string_field "Type" "type" (by simp [jsonEventFields, jsonEvent, GoType.fields]) kvs je hd
  have hI := jsonEvent_string_field "ID" "event_id" (by simp [jsonEventFields, jsonEvent, GoType.fields]) kvs je hd
  have hR := jsonEvent_string_field "RoomID" "room_id" (by simp [jsonEventFields, jsonEvent, GoType.fields]) kvs je hd
  have hMemTs : fld "Timestamp" "origin_server_ts" .int64 ∈ jsonEventFields := by
    simp [jsonEventFields, jsonEvent, GoType.fields]
  refine ⟨kvs, rfl, ?_, ?_, ?_, ?_, ?_, ?_, ?_, ?_, ?_, ?_⟩
  · intro s hm; rw [hSender]; exact hS.1 s hm
  · intro hm; rw [hSender]; exact hS.2 hm
  · intro s hm; rw [hType]; exact hT.1 s hm
  · intro hm; rw [hType]; exact hT.2 hm
  · intro n hm
    rw [hTs]
    obtain ⟨c, hc, hErr⟩ := jsonEvent_field_present _ hMemTs kvs je (.int n) hd hm
    simp only [fld] at hc hErr
    show (je.field "Timestamp").getInt = n
    rw [hc, decode_int64_int c n hErr]
    rfl
  · intro hm
    rw [hTs]
    have h0 := jsonEvent_field_absent _ hMemTs kvs je hd hm
    simp only [fld] at h0
    show (je.field "Timestamp").getInt = 0
    rw [h0]
    rfl
  · intro s hm; rw [hID]; exact hI.1 s hm
  · intro hm; rw [hID]; exact hI.2 hm
  · intro s hm; rw [hRoom]; exact hR.1 s hm
  · intro hm; rw [hRoom]; exact hR.2 hm

/-- C12, witness: the full envelope of a name event. -/
theorem C12_envelope_fields_copied_witness :
    ∃ kvs, some (JSON.obj fullEnvelopeMembers) = some (.obj kvs) ∧
      (∀ s, envelopeMember "sender" kvs = some (.str s) → fullEnvelopeEvent.Sender = s) ∧
      (envelopeMember "sender" kvs = none → fullEnvelopeEvent.Sender = "") ∧
      (∀ s, envelopeMember "type" kvs = some (.str s) → fullEnvelopeEvent.Type_ = s) ∧
      (envelopeMember "type" kvs = none → fullEnvelopeEvent.Type_ = "") ∧
      (∀ n, envelopeMember "origin_server_ts" kvs = some (.int n) →
        fullEnvelopeEvent.Timestamp = n) ∧
      (envelopeMember "origin_server_ts" kvs = none → fullEnvelopeEvent.Timestamp = 0) ∧
      (∀ s, envelopeMember "event_id" kvs = some (.str s) → fullEnvelopeEvent.ID = s) ∧
      (envelopeMember "event_id" kvs = none → fullEnvelopeEvent.ID = "") ∧
      (∀ s, envelopeMember "room_id" kvs = some (.str s) → fullEnvelopeEvent.RoomID = s) ∧
      (envelopeMember "room_id" kvs = none → fullEnvelopeEvent.RoomID = "") :=
  C12_envelope_fields_copied Event.zero fullEnvelopeEvent (some (.obj fullEnvelopeMembers)) rfl

/-- C13, counterexample: an envelope without a sender and an envelope without
a type are both decoded without error; the missing field is left empty. -/
theorem C13_missing_sender_or_type_is_accepted :
    envelopeMember "sender" [("type", JSON.str "m.room.name"),
      ("content", JSON.obj [("name", JSON.str "x")])] = none ∧
    Event.UnmarshalJSON Event.zero (some noSenderEnvelope) =
      .returned
        { Event.zero with
          Type_ := "m.room.name", Content := some ⟨RoomName, .struct [("Name", .str "x")]⟩ }
        none ∧
    envelopeMember "type" [("sender", JSON.str "@a:x"), ("content", JSON.obj [])] = none ∧
    Event.UnmarshalJSON Event.zero (some noTypeEnvelope) =
      .returned
        { Event.zero with Sender := "@a:x", Content := some ⟨mapStringInterface, .map []⟩ }
        none :=
  ⟨rfl, rfl, rfl, rfl⟩

/-- C13 (as amended): for every input that is not valid JSON, UnmarshalJSON
returns an error, and leaves the receiver as it was. -/
theorem C13_invalid_json_is_an_error (e : Event) :
    Event.UnmarshalJSON e none = .returned e (some .invalidJSON) :=
  rfl

/-- C14: for every input that UnmarshalJSON decodes without error, the input
is a JSON object; if the envelope gives a string s for state_key (the value of
its last member with that key, keys compared up to case as `encoding/json`
does), the empty string included, StateKey points to s; if no member has the
key, StateKey is nil. -/
theorem C14_state_key_presence (e e' : Event) (data : Bytes)
    (h : Event.UnmarshalJSON e data = .returned e' none) :
    ∃ kvs, data = some (.obj kvs) ∧
      (∀ s, envelopeMember "state_key" kvs = some (.str s) → e'.StateKey = some s) ∧
      (envelopeMember "state_key" kvs = none → e'.StateKey = none) := by
  obtain ⟨kvs, rfl⟩ := UnmarshalJSON_ok_is_object e e' data h
  obtain ⟨je, hd, hKey, _⟩ := UnmarshalJSON_ok_envelope e e' kvs h
  have hMem : fldOmitempty "StateKey" "state_key" (.ptr .string) ∈ jsonEventFields := by
    simp [jsonEventFields, jsonEvent, GoType.fields]
  refine ⟨kvs, rfl, ?_, ?_⟩
  · intro s hm
    obtain ⟨c, hc, _⟩ := jsonEvent_field_present _ hMem kvs je (.str s) hd hm
    simp only [fldOmitempty] at hc
    rw [hKey]
    show (je.field "StateKey").getStrPtr = some s
    rw [hc, decode_ptr_string_str]
    rfl
  · intro hm
    have h0 := jsonEvent_field_absent _ hMem kvs je hd hm
    simp only [fldOmitempty] at h0
    rw [hKey]
    show (je.field "StateKey").getStrPtr = none
    rw [h0]
    rfl

/-- C14, witness: an envelope with the empty string as state key. -/
theorem C14_state_key_presence_witness :
    ∃ kvs, some stateKeyEnvelope = some (.obj kvs) ∧
      (∀ s, envelopeMember "state_key" kvs = some (.str s) → stateKeyEvent.StateKey = some s) ∧
      (envelopeMember "state_key" kvs = none → stateKeyEvent.StateKey = none) :=
  C14_state_key_presence Event.zero stateKeyEvent (some stateKeyEnvelope) rfl

/-! ## The content: C15 to C17 -/

/-- Only a JSON string decodes to a Go string in an `interface{}`. -/
theorem toAny_str (v : JSON) (s : String) (h : (toAny v).1 = .str s) : v = .str s := by
  cases v with
  | str s' => simp [toAny] at h; rw [h]
  | null => simp [toAny] at h
  | bool b => simp [toAny] at h
  | int n =>
    simp only [toAny, convertNumber] at h
    split_ifs at h
  | dec m e =>
    simp only [toAny, convertNumber] at h
    split_ifs at h
  | arr xs => simp [toAny] at h
  | obj kvs => simp [toAny] at h

/-- C15, counterexample: the message envelope with the content `{"n":1e400}`
has a JSON object as content and no msgtype, and UnmarshalJSON does not return
nil: the content does not decode into the generic map, and `log.Fatal` ends
the process. -/
theorem C15_overflow_without_msgtype_is_fatal :
    member "msgtype" [("n", JSON.dec 1 400)] = none ∧
    (Event.UnmarshalJSON Event.zero (some noMsgtypeOverflowEnvelope)).succeeded = false ∧
    (Event.UnmarshalJSON Event.zero (some noMsgtypeOverflowEnvelope)).isFatal = true :=
  ⟨rfl, rfl, rfl⟩

/-- C15 (as amended): for every envelope that decodes into a jsonEvent without
error, whose type is "m.room.message" and whose content is a JSON object with
every number literal within the range of `float64`, in which msgtype is absent
or is not a string, UnmarshalJSON returns no error and leaves Content as it was
(nil for a new Event): no typed payload is produced. -/
theorem C15_message_without_msgtype (e : Event) (data : Bytes) (je : GoVal)
    (kvs : List (String × JSON))
    (hEnv : json.Unmarshal data jsonEvent (zeroValue jsonEvent) = (je, none))
    (hType : (je.field "Type").getStr = eventRoomMessage)
    (hContent : (je.field "Content").getRaw = some (.obj kvs))
    (hFit : numbersFitMembers kvs = true)
    (hMsg : ∀ s, member "msgtype" kvs ≠ some (.str s)) :
    Event.UnmarshalJSON e data = .returned (e.withEnvelope je) none ∧
    (e.withEnvelope je).Content = e.Content := by
  refine ⟨?_, rfl⟩
  rw [UnmarshalJSON_message e data je hEnv hType, hContent, Unmarshal_object_into_map]
  have hLook := toAnyMap_lookup "msgtype" kvs []
  simp only [toAnyMap_fit [] kvs hFit, GoVal.entries]
  split
  · next msgType hEq =>
    exfalso
    rw [hEq] at hLook
    cases hm : member "msgtype" kvs with
    | none => rw [hm] at hLook; simp [mapLookup] at hLook
    | some v =>
      rw [hm] at hLook
      simp only [Option.some.injEq] at hLook
      have := toAny_str v msgType hLook.symm
      subst this
      exact hMsg msgType hm
  · rfl

/-- C15, witness: the message envelope with the content `{"body":"hi"}`. -/
theorem C15_message_without_msgtype_witness :
    Event.UnmarshalJSON Event.zero (some noMsgtypeEnvelope) =
      .returned (Event.zero.withEnvelope
        (bareEnvelope "m.room.message" (.obj [("body", .str "hi")]))) none ∧
    (Event.zero.withEnvelope
      (bareEnvelope "m.room.message" (.obj [("body", .str "hi")]))).Content = Event.zero.Content :=
  C15_message_without_msgtype Event.zero (some noMsgtypeEnvelope)
    (bareEnvelope "m.room.message" (.obj [("body", .str "hi")])) [("body", .str "hi")]
    rfl rfl rfl (by decide) (by intro s h; simp [member] at h)

/-- C16 (code at the failing input): for a message envelope whose content is a
string, a number or an array, UnmarshalJSON ends the process with `log.Fatal`
and returns nothing to its caller. -/
theorem C16_non_object_message_content_is_fatal :
    (Event.UnmarshalJSON Event.zero (some (messageEnvelope (.str "hello")))).isFatal = true ∧
    (Event.UnmarshalJSON Event.zero (some (messageEnvelope (.str "hello")))).error = none ∧
    (Event.UnmarshalJSON Event.zero (some (messageEnvelope (.int 5)))).isFatal = true ∧
    (Event.UnmarshalJSON Event.zero (some (messageEnvelope (.arr [])))).isFatal = true :=
  ⟨rfl, rfl, rfl, rfl⟩

theorem registry_not_message : ∀ entry ∈ registry, entry.1 ≠ eventRoomMessage := by
  intro entry hMem
  simp only [registry, List.mem_cons, List.mem_singleton, List.not_mem_nil, or_false] at hMem
  rcases hMem with rfl | rfl | rfl | rfl | rfl | rfl | rfl | rfl | rfl | rfl | rfl | rfl | rfl |
    rfl | rfl | rfl | rfl | rfl | rfl | rfl | rfl | rfl | rfl <;> decide

theorem registeredShape_of_mem : ∀ entry ∈ registry, registeredShape entry.1 = entry.2 := by
  intro entry hMem
  simp only [registry, List.mem_cons, List.mem_singleton, List.not_mem_nil, or_false] at hMem
  rcases hMem with rfl | rfl | rfl | rfl | rfl | rfl | rfl | rfl | rfl | rfl | rfl | rfl | rfl |
    rfl | rfl | rfl | rfl | rfl | rfl | rfl | rfl | rfl | rfl <;> rfl

/-- C17: for each of the 23 entries (tag, shape) of the registry, and every
envelope of that tag that decodes into a jsonEvent and whose content is a JSON
object that decodes into the shape without error, UnmarshalJSON returns no
error and sets Content to a value of that shape: the one the content decodes
to. The entries of "m.room.guest_access" and "m.direct" have the shape
RoomAliases. -/
theorem C17_registry_shapes (e : Event) (data : Bytes) (je : GoVal)
    (kvs : List (String × JSON)) (tag : String) (shape : GoType)
    (hReg : (tag, shape) ∈ registry)
    (hEnv : json.Unmarshal data jsonEvent (zeroValue jsonEvent) = (je, none))
    (hType : (je.field "Type").getStr = tag)
    (hContent : (je.field "Content").getRaw = some (.obj kvs))
    (hFits : (decode shape (freshValue shape) (.obj kvs)).2 = none) :
    Event.UnmarshalJSON e data =
      .returned
        { e.withEnvelope je with
          Content := some ⟨shape, (decode shape (freshValue shape) (.obj kvs)).1⟩ }
        none := by
  have hNe : (je.field "Type").getStr ≠ eventRoomMessage := by
    rw [hType]
    exact registry_not_message (tag, shape) hReg
  have hShape : registeredShape (je.field "Type").getStr = shape := by
    rw [hType]
    exact registeredShape_of_mem (tag, shape) hReg
  rw [UnmarshalJSON_registered e data je hEnv hNe, hShape, hContent]
  simp only [decodeContent, json.Unmarshal, hFits]

/-- C17, witness: a guest-access envelope is decoded into a RoomAliases. -/
theorem C17_registry_shapes_witness :
    Event.UnmarshalJSON Event.zero (some guestAccessEnvelope) =
      .returned
        { Event.zero.withEnvelope
            (bareEnvelope "m.room.guest_access" (.obj [("aliases", .arr [.str "#a:x"])])) with
          Content := some ⟨RoomAliases, .struct [("Aliases", .slice [.str "#a:x"])]⟩ }
        none :=
  C17_registry_shapes Event.zero (some guestAccessEnvelope)
    (bareEnvelope "m.room.guest_access" (.obj [("aliases", .arr [.str "#a:x"])]))
    [("aliases", .arr [.str "#a:x"])] eventRoomGuestAccess RoomAliases
    (by simp [registry]) rfl rfl rfl rfl

/-! ## Lookup, termination and flows: C18 to C20 -/

/-- C18: for every room, type t and key k, GetStateEvent(t, k) returns the
pointer stored at State[t][k] when State is not nil, holds an inner map under
t and that map holds a non-nil pointer under k, and nil in every other case
(State nil, no inner map under t, a nil inner map, no entry under k, a nil
entry). The method only reads the two maps: it is a function of the room and
has no state to give back. -/
theorem C18_GetStateEvent_is_lookup (room : Room) (t k : String) :
    (∀ outer inner p, room.State = some outer → mapLookup t outer = some (some inner) →
      mapLookup k inner = some (some p) → room.GetStateEvent t k = some p) ∧
    ((¬ ∃ outer inner p, room.State = some outer ∧ mapLookup t outer = some (some inner) ∧
      mapLookup k inner = some (some p)) → room.GetStateEvent t k = none) := by
  constructor
  · intro outer inner p hS hO hI
    simp [Room.GetStateEvent, index, hS, hO, hI]
  · intro hNone
    obtain ⟨ID, State⟩ := room
    cases State with
    | none => rfl
    | some outer =>
      cases hO : mapLookup t outer with
      | none => simp [Room.GetStateEvent, index, hO]
      | some innerOpt =>
        cases innerOpt with
        | none => simp [Room.GetStateEvent, index, hO]
        | some inner =>
          cases hI : mapLookup k inner with
          | none => simp [Room.GetStateEvent, index, hO, hI]
          | some pOpt =>
            cases pOpt with
            | none => simp [Room.GetStateEvent, index, hO, hI]
            | some p => exact absurd ⟨outer, inner, p, rfl, hO, hI⟩ hNone

/-- C19 (code on every receiver): none of the eight MarshalJSON methods
returns, whatever the fuel: the call of `json.Marshal` on the receiver calls
the method again. -/
theorem C19_MarshalJSON_never_returns (unescapeString : String → String) (fuel : Nat)
    (m : GoVal) :
    (TextMessage.MarshalJSON unescapeString fuel m).2 = none ∧
    (EmoteMessage.MarshalJSON unescapeString fuel m).2 = none ∧
    (NoticeMessage.MarshalJSON unescapeString fuel m).2 = none ∧
    (ImageMessage.MarshalJSON unescapeString fuel m).2 = none ∧
    (VideoMessage.MarshalJSON unescapeString fuel m).2 = none ∧
    (FileMessage.MarshalJSON unescapeString fuel m).2 = none ∧
    (LocationMessage.MarshalJSON unescapeString fuel m).2 = none ∧
    (AudioMessage.MarshalJSON unescapeString fuel m).2 = none := by
  obtain ⟨h1, h2, h3, h4, h5, h6, h7, h8, _⟩ := MarshalJSON_never_returns unescapeString fuel
  exact ⟨h1 m, h2 m, h3 m, h5 m, h4 m, h6 m, h7 m, h8 m⟩

theorem hasSingleStageFlowFrom_iff (s : String) : ∀ flows : List Flow,
    hasSingleStageFlowFrom s flows = true ↔ ∃ f ∈ flows, f.Stages = [s]
  | [] => by simp [hasSingleStageFlowFrom]
  | f :: rest => by
    rw [hasSingleStageFlowFrom]
    have ih := hasSingleStageFlowFrom_iff s rest
    have hHead : (f.Stages.length == 1 && f.Stages.head? == some s) = true ↔ f.Stages = [s] := by
      obtain ⟨stages⟩ := f
      cases stages with
      | nil => simp
      | cons a tl =>
        cases tl with
        | nil => simp
        | cons b tl' => simp
    by_cases h : f.Stages = [s]
    · simp [hHead.mpr h, h]
    · have hb : (f.Stages.length == 1 && f.Stages.head? == some s) = false := by
        cases hc : (f.Stages.length == 1 && f.Stages.head? == some s) with
        | false => rfl
        | true => exact absurd (hHead.mp hc) h
      simp only [hb, List.mem_cons, exists_eq_or_imp, h, false_or]
      simpa using ih

/-- C20: HasSingleStageFlow(s) returns true if and only if some flow of the
response has exactly one stage and that stage is s. -/
theorem C20_HasSingleStageFlow_iff (r : UserInteractive) (s : String) :
    r.HasSingleStageFlow s = true ↔ ∃ f ∈ r.Flows, f.Stages = [s] :=
  hasSingleStageFlowFrom_iff s r.Flows

/-! ## Room state: C21 to C23 -/

/-- An update leaves every entry but its own as it was, in the room the call
leaves behind, whether it returned or panicked. -/
theorem UpdateState_frame (room : Room) (p : EventPtr) (key t k : String)
    (hKey : p.deref.StateKey = some key) (hOther : ¬ (t = p.deref.Type_ ∧ k = key)) :
    (room.UpdateState (some p)).state.GetStateEvent t k = room.GetStateEvent t k := by
  obtain ⟨ID, State⟩ := room
  cases State with
  | none => simp [Room.UpdateState, index, Run.state]
  | some state =>
    cases hL : mapLookup p.deref.Type_ state with
    | none =>
      simp only [Room.UpdateState, index, hL, hKey, mapLookup_mapAssign_self, Option.getD,
        Run.state, mapAssign]
      by_cases ht : t = p.deref.Type_
      · subst ht
        have hk : k ≠ key := fun h => hOther ⟨rfl, h⟩
        simp [Room.GetStateEvent, index, mapLookup_mapAssign_self, hL, mapLookup, Ne.symm hk]
      · simp [Room.GetStateEvent, index, mapLookup_mapAssign_ne _ _ _ _ ht]
    | some inner =>
      cases inner with
      | none => simp [Room.UpdateState, index, hL, hKey, Run.state]
      | some entries =>
        simp only [Room.UpdateState, index, hL, hKey, Option.getD, Run.state]
        by_cases ht : t = p.deref.Type_
        · subst ht
          have hk : k ≠ key := fun h => hOther ⟨rfl, h⟩
          simp [Room.GetStateEvent, index, mapLookup_mapAssign_self, hL,
            mapLookup_mapAssign_ne _ _ _ _ hk]
        · simp [Room.GetStateEvent, index, mapLookup_mapAssign_ne _ _ _ _ ht]

/-- A room made by NewRoom and updates that returned: its state map is not nil
and holds no nil inner map. Such a room takes any number of further events
with a state key, and its entries stay filed under their own type and key. -/
theorem applyAll_done : ∀ (es : List EventPtr) (room : Room),
    room.State ≠ none → (∀ t, index room.State t ≠ some none) →
    (∀ t k e, room.GetStateEvent t k = some e → e.deref.Type_ = t ∧ e.deref.StateKey = some k) →
    (∀ e ∈ es, e.deref.StateKey ≠ none) →
    ∃ r, applyAll room es = .done r ∧ r.State ≠ none ∧ (∀ t, index r.State t ≠ some none) ∧
      (∀ t k e, r.GetStateEvent t k = some e → e.deref.Type_ = t ∧ e.deref.StateKey = some k)
  | [], room, hS, hI, hF, _ => ⟨room, rfl, hS, hI, hF⟩
  | p :: es, room, hS, hI, hF, hKeys => by
    have hp : p.deref.StateKey ≠ none := hKeys p (List.mem_cons_self _ _)
    obtain ⟨key, hKey⟩ := Option.ne_none_iff_exists'.mp hp
    obtain ⟨r, hDone, hS', hI', hGet⟩ := UpdateState_done room p key hS (hI _) hKey
    have hFrame := fun t k h => UpdateState_frame room p key t k hKey h
    rw [hDone] at hFrame
    have hF' : ∀ t k e, r.GetStateEvent t k = some e →
        e.deref.Type_ = t ∧ e.deref.StateKey = some k := by
      intro t k e he
      by_cases hSame : t = p.deref.Type_ ∧ k = key
      · obtain ⟨rfl, rfl⟩ := hSame
        rw [hGet] at he
        cases he
        exact ⟨rfl, hKey⟩
      · have := hFrame t k hSame
        simp only [Run.state] at this
        rw [this] at he
        exact hF t k e he
    obtain ⟨r', hAll, h1, h2, h3⟩ := applyAll_done es r hS' (fun t => (hI' t).mpr (hI t)) hF'
      (fun e he => hKeys e (List.mem_cons_of_mem _ he))
    exact ⟨r', by simp [applyAll, hDone, hAll], h1, h2, h3⟩

/-- An event without state key makes UpdateState panic, after the inner map of
its type has been made when there was none. No entry changes. -/
theorem UpdateState_nil_key (room : Room) (p : EventPtr)
    (hState : room.State ≠ none) (hInner : ∀ t, index room.State t ≠ some none)
    (hKey : p.deref.StateKey = none) :
    ∃ r, room.UpdateState (some p) = .panic r ∧
      (∃ inner, index r.State p.deref.Type_ = some (some inner)) ∧
      (index room.State p.deref.Type_ = none → index r.State p.deref.Type_ = some (some [])) ∧
      (index room.State p.deref.Type_ ≠ none → r = room) := by
  obtain ⟨ID, State⟩ := room
  cases State with
  | none => exact absurd rfl hState
  | some state =>
    have hI := hInner p.deref.Type_
    simp only [index] at hI
    cases hL : mapLookup p.deref.Type_ state with
    | none =>
      refine ⟨⟨ID, some (mapAssign p.deref.Type_ (some []) state)⟩, ?_, ⟨[], ?_⟩, ?_, ?_⟩
      · simp [Room.UpdateState, index, hL, hKey]
      · simp [index, mapLookup_mapAssign_self]
      · intro _; simp [index, mapLookup_mapAssign_self]
      · intro h; simp [index, hL] at h
    | some inner =>
      cases inner with
      | none => exact absurd hL hI
      | some entries =>
        refine ⟨⟨ID, some state⟩, ?_, ⟨entries, ?_⟩, ?_, ?_⟩
        · simp [Room.UpdateState, index, hL, hKey]
        · simp [index, hL]
        · intro h; simp [index, hL] at h
        · intro _; rfl

/-! ### The inner maps held by reference: C21 -/

/-- Every address the state map stores is below the address of a new map. -/
theorem lt_freshAddr (t : String) (a : Nat) : ∀ (state : List (String × Option Nat)),
    mapLookup t state = some (some a) → a < freshAddr state
  | [], h => by simp [mapLookup] at h
  | (t', none) :: rest, h => by
    by_cases ht : t' = t
    · simp [mapLookup, ht] at h
    · simp only [mapLookup, ht, if_false] at h
      exact lt_freshAddr t a rest h
  | (t', some a') :: rest, h => by
    by_cases ht : t' = t
    · simp only [mapLookup, ht, if_true, Option.some.injEq] at h
      subst h
      simp only [freshAddr]
      omega
    · simp only [mapLookup, ht, if_false] at h
      have := lt_freshAddr t a rest h
      simp only [freshAddr]
      omega

/-- Reading the view of a state map is reading the state map and then the
memory. -/
theorem mapLookup_view (Maps : Nat → List (String × Option EventPtr)) (t : String)
    (state : List (String × Option Nat)) :
    mapLookup t (state.map (fun entry => (entry.1, entry.2.map Maps))) =
      (mapLookup t state).map (fun x => x.map Maps) := by
  induction state with
  | nil => rfl
  | cons x xs ih =>
    obtain ⟨t', v⟩ := x
    by_cases ht : t' = t
    · simp [mapLookup, ht]
    · simp [mapLookup, ht, ih]

/-- Reading a room with its inner maps held by reference is reading its view. -/
theorem view_GetStateEvent (room : HeapRoom) (t k : String) :
    room.view.GetStateEvent t k = room.GetStateEvent t k := by
  obtain ⟨ID, State, Maps⟩ := room
  cases State with
  | none => rfl
  | some state =>
    simp only [HeapRoom.view, Room.GetStateEvent, HeapRoom.GetStateEvent, index,
      Option.map_some', mapLookup_view]
    cases mapLookup t state with
    | none => rfl
    | some v => cases v <;> rfl

/-- An update leaves every entry but its own as it was, in the room the call
leaves behind, whether it returned or panicked: but for the entries with the
key of the event in a map that is also the map of the type of the event. -/
theorem heap_UpdateState_frame (room : HeapRoom) (e : EventPtr) (key t k : String)
    (hKey : e.deref.StateKey = some key) (hOther : ¬ (t = e.deref.Type_ ∧ k = key))
    (hOwn : k = key → room.sameMap t e.deref.Type_ = false) :
    (room.UpdateState (some e)).state.GetStateEvent t k = room.GetStateEvent t k := by
  obtain ⟨ID, State, Maps⟩ := room
  cases State with
  | none => simp [HeapRoom.UpdateState, index, Run.state]
  | some state =>
    cases hL : mapLookup e.deref.Type_ state with
    | none =>
      simp only [HeapRoom.UpdateState, index, hL, hKey, mapLookup_mapAssign_self, Option.getD,
        Run.state, HeapRoom.GetStateEvent]
      by_cases ht : t = e.deref.Type_
      · subst ht
        have hk : k ≠ key := fun h => hOther ⟨rfl, h⟩
        simp [mapLookup_mapAssign_self, hL, mapLookup, mapAssign, Ne.symm hk, index]
      · rw [mapLookup_mapAssign_ne _ _ _ _ ht]
        cases hT : mapLookup t state with
        | none => rfl
        | some v =>
          cases v with
          | none => rfl
          | some a =>
            have hlt := lt_freshAddr t a state hT
            have hne : a ≠ freshAddr state := by omega
            simp [Function.update_noteq hne]
    | some inner =>
      cases inner with
      | none => simp [HeapRoom.UpdateState, index, hL, hKey, Run.state]
      | some a₀ =>
        simp only [HeapRoom.UpdateState, index, hL, hKey, Option.getD, Run.state,
          HeapRoom.GetStateEvent]
        cases hT : mapLookup t state with
        | none => rfl
        | some v =>
          cases v with
          | none => rfl
          | some a =>
            by_cases ha : a = a₀
            · subst ha
              have hk : k ≠ key := by
                intro hk
                have := hOwn hk
                simp [HeapRoom.sameMap, index, hT, hL] at this
              simp [mapLookup_mapAssign_ne _ _ _ _ hk]
            · simp [Function.update_noteq ha]

/-- An update of a room whose state map is not nil and holds no nil inner map
under the type of the event returns, and the event is then read back under its
type and key. -/
theorem heap_UpdateState_done (room : HeapRoom) (e : EventPtr) (key : String)
    (hState : room.State ≠ none) (hInner : index room.State e.deref.Type_ ≠ some none)
    (hKey : e.deref.StateKey = some key) :
    ∃ r, room.UpdateState (some e) = .done r ∧ r.GetStateEvent e.deref.Type_ key = some e := by
  obtain ⟨ID, State, Maps⟩ := room
  cases State with
  | none => exact absurd rfl hState
  | some state =>
    cases hL : mapLookup e.deref.Type_ state with
    | none =>
      refine ⟨⟨ID, some (mapAssign e.deref.Type_ (some (freshAddr state)) state),
        Function.update (Function.update Maps (freshAddr state) []) (freshAddr state)
          (mapAssign key (some e) (Function.update Maps (freshAddr state) []
            (freshAddr state)))⟩, ?_, ?_⟩
      · simp only [HeapRoom.UpdateState, index, hL, hKey, mapLookup_mapAssign_self,
          Option.getD]
      · simp [HeapRoom.GetStateEvent, index, mapLookup_mapAssign_self]
    | some inner =>
      cases inner with
      | none => simp [index, hL] at hInner
      | some a₀ =>
        refine ⟨⟨ID, some state,
          Function.update Maps a₀ (mapAssign key (some e) (Maps a₀))⟩, ?_, ?_⟩
        · simp only [HeapRoom.UpdateState, index, hL, hKey, Option.getD]
        · simp [HeapRoom.GetStateEvent, index, hL, mapLookup_mapAssign_self]

/-- A room made by NewRoom, whatever the memory holds. -/
theorem view_NewRoom (roomID : String) (Maps : Nat → List (String × Option EventPtr)) :
    (HeapRoom.mk roomID (some []) Maps).view = NewRoom roomID := rfl

/-- In a room that stores no inner map under two types, an update of the room
with its inner maps held by reference and the update of its view end the same
way and are read the same way after. -/
theorem view_UpdateState (room : HeapRoom) (e : Option EventPtr) (t k : String)
    (hOwn : ∀ t₁ t₂, t₁ ≠ t₂ → room.sameMap t₁ t₂ = false) :
    (room.UpdateState e).panicked = (room.view.UpdateState e).panicked ∧
    (room.UpdateState e).state.GetStateEvent t k =
      (room.view.UpdateState e).state.GetStateEvent t k := by
  cases e with
  | none => exact ⟨rfl, (view_GetStateEvent room t k).symm⟩
  | some p =>
    obtain ⟨ID, State, Maps⟩ := room
    cases State with
    | none => exact ⟨rfl, rfl⟩
    | some state =>
      have hV := mapLookup_view Maps
      cases hL : mapLookup p.deref.Type_ state with
      | none =>
        have hT : ∀ a, mapLookup t state = some (some a) →
            Function.update Maps (freshAddr state) [] a = Maps a := fun a ha =>
          Function.update_noteq (Nat.ne_of_lt (lt_freshAddr t a state ha)) _ _
        cases hKey : p.deref.StateKey with
        | none =>
          refine ⟨by simp [HeapRoom.UpdateState, Room.UpdateState, HeapRoom.view, index, hL, hV,
            hKey, Run.panicked, mapLookup_mapAssign_self], ?_⟩
          simp only [HeapRoom.UpdateState, Room.UpdateState, HeapRoom.view, index, hL, hV, hKey,
            Option.map_some', Option.map_none', mapLookup_mapAssign_self, Option.getD, Run.state,
            HeapRoom.GetStateEvent, Room.GetStateEvent]
          by_cases ht : t = p.deref.Type_
          · subst ht
            simp [mapLookup_mapAssign_self, mapLookup]
          · rw [mapLookup_mapAssign_ne _ _ _ _ ht, mapLookup_mapAssign_ne _ _ _ _ ht, hV]
            cases hT' : mapLookup t state with
            | none => rfl
            | some v =>
              cases v with
              | none => rfl
              | some a => simp [hT a hT']
        | some key =>
          refine ⟨by simp [HeapRoom.UpdateState, Room.UpdateState, HeapRoom.view, index, hL, hV,
            hKey, Run.panicked, mapLookup_mapAssign_self], ?_⟩
          simp only [HeapRoom.UpdateState, Room.UpdateState, HeapRoom.view, index, hL, hV, hKey,
            Option.map_some', Option.map_none', mapLookup_mapAssign_self, Option.getD, Run.state,
            HeapRoom.GetStateEvent, Room.GetStateEvent]
          by_cases ht : t = p.deref.Type_
          · subst ht
            simp [mapLookup_mapAssign_self]
          · rw [mapLookup_mapAssign_ne _ _ _ _ ht, mapLookup_mapAssign_ne _ _ _ _ ht,
              mapLookup_mapAssign_ne _ _ _ _ ht, hV]
            cases hT' : mapLookup t state with
            | none => rfl
            | some v =>
              cases v with
              | none => rfl
              | some a =>
                have hne : a ≠ freshAddr state := Nat.ne_of_lt (lt_freshAddr t a state hT')
                simp [Function.update_noteq hne]
      | some inner =>
        cases inner with
        | none =>
          refine ⟨by cases hKey : p.deref.StateKey <;>
            simp [HeapRoom.UpdateState, Room.UpdateState, HeapRoom.view, index, hL, hV, hKey,
              Run.panicked], ?_⟩
          have hSame : (HeapRoom.UpdateState ⟨ID, some state, Maps⟩ (some p)).state =
              ⟨ID, some state, Maps⟩ := by
            cases hKey : p.deref.StateKey <;>
              simp [HeapRoom.UpdateState, index, hL, hKey, Run.state]
          have hSame' : (Room.UpdateState (HeapRoom.view ⟨ID, some state, Maps⟩) (some p)).state =
              HeapRoom.view ⟨ID, some state, Maps⟩ := by
            cases hKey : p.deref.StateKey <;>
              simp [Room.UpdateState, HeapRoom.view, index, hL, hV, hKey, Run.state]
          rw [hSame, hSame', view_GetStateEvent]
        | some a₀ =>
          cases hKey : p.deref.StateKey with
          | none =>
            refine ⟨by simp [HeapRoom.UpdateState, Room.UpdateState, HeapRoom.view, index, hL,
              hV, hKey, Run.panicked], ?_⟩
            have hSame : (HeapRoom.UpdateState ⟨ID, some state, Maps⟩ (some p)).state =
                ⟨ID, some state, Maps⟩ := by
              simp [HeapRoom.UpdateState, index, hL, hKey, Run.state]
            have hSame' : (Room.UpdateState (HeapRoom.view ⟨ID, some state, Maps⟩)
                (some p)).state = HeapRoom.view ⟨ID, some state, Maps⟩ := by
              simp [Room.UpdateState, HeapRoom.view, index, hL, hV, hKey, Run.state]
            rw [hSame, hSame', view_GetStateEvent]
          | some key =>
            refine ⟨by simp [HeapRoom.UpdateState, Room.UpdateState, HeapRoom.view, index, hL,
              hV, hKey, Run.panicked], ?_⟩
            simp only [HeapRoom.UpdateState, Room.UpdateState, HeapRoom.view, index, hL, hV,
              hKey, Option.map_some', Option.getD, Run.state, HeapRoom.GetStateEvent,
              Room.GetStateEvent]
            by_cases ht : t = p.deref.Type_
            · subst ht
              simp [mapLookup_mapAssign_self, hL]
            · rw [mapLookup_mapAssign_ne _ _ _ _ ht, hV]
              cases hT' : mapLookup t state with
              | none => rfl
              | some v =>
                cases v with
                | none => rfl
                | some a =>
                  have hne : a ≠ a₀ := by
                    intro ha
                    have := hOwn t p.deref.Type_ ht
                    simp [HeapRoom.sameMap, index, hT', hL, ha] at this
                  simp [Function.update_noteq hne]

/-- An update stores no inner map under two types when the room stored none
so. -/
theorem UpdateState_keeps_maps_apart (room : HeapRoom) (e : Option EventPtr)
    (hOwn : ∀ t₁ t₂, t₁ ≠ t₂ → room.sameMap t₁ t₂ = false) :
    ∀ t₁ t₂, t₁ ≠ t₂ → (room.UpdateState e).state.sameMap t₁ t₂ = false := by
  intro t₁ t₂ hne
  cases e with
  | none => exact hOwn t₁ t₂ hne
  | some p =>
    obtain ⟨ID, State, Maps⟩ := room
    cases State with
    | none => exact hOwn t₁ t₂ hne
    | some state =>
      have hO := hOwn t₁ t₂ hne
      cases hL : mapLookup p.deref.Type_ state with
      | some inner =>
        have hState : ((HeapRoom.UpdateState ⟨ID, some state, Maps⟩ (some p)).state).State =
            some state := by
          cases inner <;> cases hKey : p.deref.StateKey <;>
            simp [HeapRoom.UpdateState, index, hL, hKey, Run.state]
        simp only [HeapRoom.sameMap, hState]
        exact hO
      | none =>
        have hState : ((HeapRoom.UpdateState ⟨ID, some state, Maps⟩ (some p)).state).State =
            some (mapAssign p.deref.Type_ (some (freshAddr state)) state) := by
          cases hKey : p.deref.StateKey <;>
            simp [HeapRoom.UpdateState, index, hL, hKey, Run.state, mapLookup_mapAssign_self]
        simp only [HeapRoom.sameMap, hState, index]
        simp only [HeapRoom.sameMap, index] at hO
        by_cases h₁ : t₁ = p.deref.Type_
        · have h₂ : t₂ ≠ p.deref.Type_ := fun h => hne (h₁.trans h.symm)
          rw [h₁, mapLookup_mapAssign_self, mapLookup_mapAssign_ne _ _ _ _ h₂]
          cases hT : mapLookup t₂ state with
          | none => rfl
          | some v =>
            cases v with
            | none => rfl
            | some a =>
              have := lt_freshAddr t₂ a state hT
              simp only [Option.getD, beq_eq_false_iff_ne, ne_eq]
              omega
        · rw [mapLookup_mapAssign_ne _ _ _ _ h₁]
          by_cases h₂ : t₂ = p.deref.Type_
          · rw [h₂, mapLookup_mapAssign_self]
            cases hT : mapLookup t₁ state with
            | none => rfl
            | some v =>
              cases v with
              | none => rfl
              | some a =>
                have := lt_freshAddr t₁ a state hT
                simp only [Option.getD, beq_eq_false_iff_ne, ne_eq]
                omega
          · rw [mapLookup_mapAssign_ne _ _ _ _ h₂]
            exact hO

/-- C21, counterexample: the State map of the room is initialised and stores
one inner map under "m.room.name" and "m.room.topic"; the event has the type
"m.room.name" and the state key ""; the pair ("m.room.topic", "") is another
pair, read as nil before the update and as the event after it. -/
theorem C21_shared_inner_map_is_written :
    sharedMapRoom.State.isSome = true ∧
    (stateEvent "m.room.name" "" "n").StateKey = some "" ∧
    "m.room.topic" ≠ (stateEvent "m.room.name" "" "n").Type_ ∧
    sharedMapRoom.GetStateEvent "m.room.topic" "" = none ∧
    (sharedMapRoom.UpdateState (some ⟨2, stateEvent "m.room.name" "" "n"⟩)).panicked = false ∧
    (sharedMapRoom.UpdateState (some ⟨2, stateEvent "m.room.name" "" "n"⟩)).state.GetStateEvent
        "m.room.topic" "" = some ⟨2, stateEvent "m.room.name" "" "n"⟩ ∧
    (sharedMapRoom.UpdateState (some ⟨2, stateEvent "m.room.name" "" "n"⟩)).state.GetStateEvent
        "m.room.topic" "" ≠ sharedMapRoom.GetStateEvent "m.room.topic" "" :=
  ⟨rfl, rfl, by decide, rfl, rfl, rfl,
    Option.some_ne_none (EventPtr.mk 2 (stateEvent "m.room.name" "" "n"))⟩

/-- C21 (as amended): for every room with an initialised State map, every event e
with a non-nil state key and every pair (t, k) other than (e.Type, *e.StateKey)
such that, when k is *e.StateKey, the inner map stored under t is not the map
stored under e.Type, GetStateEvent(t, k) returns in the room UpdateState(e)
leaves behind what it returned before; and when the room holds no nil inner map
under e.Type the update returns and e is the entry read back under
(e.Type, *e.StateKey). -/
theorem C21_update_leaves_unshared_entries (room : HeapRoom) (e : EventPtr) (key t k : String)
    (hState : room.State ≠ none) (hKey : e.deref.StateKey = some key)
    (hOther : ¬ (t = e.deref.Type_ ∧ k = key))
    (hOwn : k = key → room.sameMap t e.deref.Type_ = false) :
    (room.UpdateState (some e)).state.GetStateEvent t k = room.GetStateEvent t k ∧
    (index room.State e.deref.Type_ ≠ some none →
      ∃ r, room.UpdateState (some e) = .done r ∧ r.GetStateEvent e.deref.Type_ key = some e) :=
  ⟨heap_UpdateState_frame room e key t k hKey hOther hOwn,
    fun hInner => heap_UpdateState_done room e key hState hInner hKey⟩

/-- C21, witness: a name event put in a room that holds a topic event in an
inner map of its own. -/
theorem C21_update_leaves_unshared_entries_witness :
    (topicRoom.UpdateState (some ⟨2, stateEvent "m.room.name" "" "n"⟩)).state.GetStateEvent
        "m.room.topic" "" = topicRoom.GetStateEvent "m.room.topic" "" ∧
    (index topicRoom.State (stateEvent "m.room.name" "" "n").Type_ ≠ some none →
      ∃ r, topicRoom.UpdateState (some ⟨2, stateEvent "m.room.name" "" "n"⟩) = .done r ∧
        r.GetStateEvent (stateEvent "m.room.name" "" "n").Type_ "" =
          some ⟨2, stateEvent "m.room.name" "" "n"⟩) :=
  C21_update_leaves_unshared_entries topicRoom ⟨2, stateEvent "m.room.name" "" "n"⟩ ""
    "m.room.topic" "" (by simp [topicRoom]) rfl (by simp [stateEvent]) (fun _ => rfl)

/-! ### Rooms made by NewRoom: C22, C23 -/

/-- C22: for every room made by NewRoom and every list of events that each
carry a state key, applying the events in order with UpdateState returns for
each of them (no panic); and in the room reached, UpdateState of an event
without state key panics, in a state that holds an inner map under the type of
the event: the empty one just made, when there was none. -/
theorem C22_updates_with_keys_never_panic (roomID : String) (es : List EventPtr)
    (hKeys : ∀ e ∈ es, e.deref.StateKey ≠ none) :
    ∃ r, applyAll (NewRoom roomID) es = .done r ∧
      ∀ p : EventPtr, p.deref.StateKey = none →
        ∃ r', r.UpdateState (some p) = .panic r' ∧
          (∃ inner, index r'.State p.deref.Type_ = some (some inner)) ∧
          (index r.State p.deref.Type_ = none →
            index r'.State p.deref.Type_ = some (some [])) := by
  obtain ⟨r, hAll, hS, hI, _⟩ := applyAll_done es (NewRoom roomID) (by simp [NewRoom])
    (by intro t; simp [NewRoom, index, mapLookup])
    (by intro t k e h; simp [NewRoom, Room.GetStateEvent, index, mapLookup] at h) hKeys
  refine ⟨r, hAll, fun p hp => ?_⟩
  obtain ⟨r', hPanic, hHas, hMade, _⟩ := UpdateState_nil_key r p hS hI hp
  exact ⟨r', hPanic, hHas, hMade⟩

/-- C22, witness: one topic event with a state key, then a name event without. -/
theorem C22_updates_with_keys_never_panic_witness :
    ∃ r, applyAll (NewRoom "!r:x") [⟨1, stateEvent "m.room.topic" "" "t"⟩] = .done r ∧
      ∀ p : EventPtr, p.deref.StateKey = none →
        ∃ r', r.UpdateState (some p) = .panic r' ∧
          (∃ inner, index r'.State p.deref.Type_ = some (some inner)) ∧
          (index r.State p.deref.Type_ = none →
            index r'.State p.deref.Type_ = some (some [])) :=
  C22_updates_with_keys_never_panic "!r:x" [⟨1, stateEvent "m.room.topic" "" "t"⟩]
    (by simp [stateEvent])

/-- C23: NewRoom(id) has ID = id and GetStateEvent returns nil in it for every
(t, k); and in every room reached from it by UpdateState calls with events that
carry a state key, whenever GetStateEvent(t, k) returns an event e, e.Type = t
and *e.StateKey = k. -/
theorem C23_entries_filed_under_own_tags (roomID : String) (es : List EventPtr)
    (hKeys : ∀ e ∈ es, e.deref.StateKey ≠ none) :
    (NewRoom roomID).ID = roomID ∧
    (∀ t k, (NewRoom roomID).GetStateEvent t k = none) ∧
    ∃ r, applyAll (NewRoom roomID) es = .done r ∧
      ∀ t k e, r.GetStateEvent t k = some e →
        e.deref.Type_ = t ∧ e.deref.StateKey = some k := by
  refine ⟨rfl, fun t k => rfl, ?_⟩
  obtain ⟨r, hAll, _, _, hF⟩ := applyAll_done es (NewRoom roomID) (by simp [NewRoom])
    (by intro t; simp [NewRoom, index, mapLookup])
    (by intro t k e h; simp [NewRoom, Room.GetStateEvent, index, mapLookup] at h) hKeys
  exact ⟨r, hAll, hF⟩

/-- C23, witness: a topic event and a name event. -/
theorem C23_entries_filed_under_own_tags_witness :
    (NewRoom "!r:x").ID = "!r:x" ∧
    (∀ t k, (NewRoom "!r:x").GetStateEvent t k = none) ∧
    ∃ r, applyAll (NewRoom "!r:x")
        [⟨1, stateEvent "m.room.topic" "" "t"⟩, ⟨2, stateEvent "m.room.name" "" "n"⟩] = .done r ∧
      ∀ t k e, r.GetStateEvent t k = some e →
        e.deref.Type_ = t ∧ e.deref.StateKey = some k :=
  C23_entries_filed_under_own_tags "!r:x"
    [⟨1, stateEvent "m.room.topic" "" "t"⟩, ⟨2, stateEvent "m.room.name" "" "n"⟩]
    (by simp [stateEvent])

/-! ## Body by format and stale content: C24, C25 -/

/-- C24: for every TextMessage, after `(*TextMessage).MarshalJSON` has set its
receiver: with an empty Format the Body is the one the caller set, whatever the
FormattedBody; with a Format that is neither empty nor "org.matrix.custom.html"
the Body is the FormattedBody as it is; with the Format
"org.matrix.custom.html" the Body is `html.UnescapeString` of the FormattedBody
with every match of `<[^<]+?>` removed. The removal leaves `&lt;b&gt;` as it
is, so that `html.UnescapeString` gets the whole of it and makes `<b>` of it.
In each case MsgType is "m.text" and Format and FormattedBody are kept. -/
theorem C24_body_by_format (unescapeString : String → String) (fuel : Nat)
    (b t f fb : String) (hf : f ≠ "") (hh : f ≠ formatOrgMatrixCustomHtml) :
    (TextMessage.MarshalJSON unescapeString fuel (textMessage b t "" fb)).1 =
      textMessage b messageText "" fb ∧
    (TextMessage.MarshalJSON unescapeString fuel (textMessage b t f fb)).1 =
      textMessage fb messageText f fb ∧
    (TextMessage.MarshalJSON unescapeString fuel
        (textMessage b t formatOrgMatrixCustomHtml fb)).1 =
      textMessage (unescapeString (String.mk (removeTags none fb.data))) messageText
        formatOrgMatrixCustomHtml fb ∧
    (TextMessage.MarshalJSON unescapeString fuel
        (textMessage b t formatOrgMatrixCustomHtml "&lt;b&gt;")).1 =
      textMessage (unescapeString "&lt;b&gt;") messageText formatOrgMatrixCustomHtml
        "&lt;b&gt;" := by
  refine ⟨?_, ?_, ?_, ?_⟩
  · rw [(TextMessage_MarshalJSON_receiver unescapeString "" fb fuel).1 b t]
    rfl
  · rw [(TextMessage_MarshalJSON_receiver unescapeString f fb fuel).1 b t]
    simp [bodyAfterMarshal, hf, hh]
  · rw [(TextMessage_MarshalJSON_receiver unescapeString formatOrgMatrixCustomHtml fb fuel).1 b t]
    rfl
  · rw [(TextMessage_MarshalJSON_receiver unescapeString formatOrgMatrixCustomHtml
      "&lt;b&gt;" fuel).1 b t]
    rfl

/-- C24, witness: the format "text/plain", and the escaped tag turned into
`<b>`. -/
theorem C24_body_by_format_witness :
    (TextMessage.MarshalJSON unescapeLtGt 3 (textMessage "plain" "" "" "<i>x</i>")).1 =
      textMessage "plain" messageText "" "<i>x</i>" ∧
    (TextMessage.MarshalJSON unescapeLtGt 3 (textMessage "plain" "" "text/plain" "<i>x</i>")).1 =
      textMessage "<i>x</i>" messageText "text/plain" "<i>x</i>" ∧
    (TextMessage.MarshalJSON unescapeLtGt 3
        (textMessage "plain" "" formatOrgMatrixCustomHtml "<i>x</i>")).1 =
      textMessage "x" messageText formatOrgMatrixCustomHtml "<i>x</i>" ∧
    (TextMessage.MarshalJSON unescapeLtGt 3
        (textMessage "plain" "" formatOrgMatrixCustomHtml "&lt;b&gt;")).1 =
      textMessage "<b>" messageText formatOrgMatrixCustomHtml "&lt;b&gt;" :=
  C24_body_by_format unescapeLtGt 3 "plain" "" "text/plain" "<i>x</i>" (by decide) (by decide)

/-- A message envelope whose content object has no string msgtype: the call
ends with the envelope fields copied and the content untouched, by `log.Fatal`
when the content does not decode into the generic map and by returning nil
when it does. -/
theorem UnmarshalJSON_no_msgtype (e : Event) (data : Bytes) (je : GoVal)
    (kvs : List (String × JSON))
    (hEnv : json.Unmarshal data jsonEvent (zeroValue jsonEvent) = (je, none))
    (hType : (je.field "Type").getStr = eventRoomMessage)
    (hContent : (je.field "Content").getRaw = some (.obj kvs))
    (hMsg : ∀ s, member "msgtype" kvs ≠ some (.str s)) :
    Event.UnmarshalJSON e data =
      match (toAnyMap [] kvs).2 with
      | some err => .fatal (e.withEnvelope je) err
      | none => .returned (e.withEnvelope je) none := by
  rw [UnmarshalJSON_message e data je hEnv hType, hContent, Unmarshal_object_into_map]
  cases hErr : (toAnyMap [] kvs).2 with
  | some err => rfl
  | none =>
    have hLook := toAnyMap_lookup "msgtype" kvs []
    simp only [GoVal.entries]
    split
    · next msgType hEq =>
      exfalso
      rw [hEq] at hLook
      cases hm : member "msgtype" kvs with
      | none => rw [hm] at hLook; simp [mapLookup] at hLook
      | some v =>
        rw [hm] at hLook
        simp only [Option.some.injEq] at hLook
        have := toAny_str v msgType hLook.symm
        subst this
        exact hMsg msgType hm
    · rfl

/-- C25: for every Event that holds a Content c, and every envelope that
decodes into a jsonEvent, of type "m.room.message", whose content is a JSON
object without a string msgtype, UnmarshalJSON leaves the receiver with
StateKey, Sender, Type, Timestamp, ID and RoomID of the envelope and with
Content still c; it returns nil when the numbers of the content are within the
range of `float64`. -/
theorem C25_stale_content_kept (e : Event) (data : Bytes) (je : GoVal)
    (kvs : List (String × JSON)) (c : Dyn)
    (hEnv : json.Unmarshal data jsonEvent (zeroValue jsonEvent) = (je, none))
    (hType : (je.field "Type").getStr = eventRoomMessage)
    (hContent : (je.field "Content").getRaw = some (.obj kvs))
    (hMsg : ∀ s, member "msgtype" kvs ≠ some (.str s))
    (hc : e.Content = some c) :
    (Event.UnmarshalJSON e data).event =
      { StateKey := (je.field "StateKey").getStrPtr, Sender := (je.field "Sender").getStr,
        Type_ := (je.field "Type").getStr, Timestamp := (je.field "Timestamp").getInt,
        ID := (je.field "ID").getStr, RoomID := (je.field "RoomID").getStr,
        Content := some c, Redacts := e.Redacts } ∧
    (numbersFitMembers kvs = true →
      Event.UnmarshalJSON e data = .returned (e.withEnvelope je) none) := by
  rw [UnmarshalJSON_no_msgtype e data je kvs hEnv hType hContent hMsg]
  constructor
  · cases (toAnyMap [] kvs).2 <;> simp [Outcome.event, Event.withEnvelope, hc]
  · intro hFit
    rw [toAnyMap_fit [] kvs hFit]

/-- C25, witness: an event that holds the text message "old" decodes a message
envelope of another sender without msgtype, and keeps the text message. -/
theorem C25_stale_content_kept_witness :
    (Event.UnmarshalJSON staleEvent (some newEnvelope)).event =
      { StateKey := none, Sender := "@b:x", Type_ := "m.room.message", Timestamp := 0,
        ID := "", RoomID := "",
        Content := some ⟨TextMessage, textMessage "old" "m.text" "" ""⟩, Redacts := "" } ∧
    (numbersFitMembers [("body", JSON.str "new")] = true →
      Event.UnmarshalJSON staleEvent (some newEnvelope) =
        .returned (staleEvent.withEnvelope newEnvelopeDecoded) none) :=
  C25_stale_content_kept staleEvent (some newEnvelope) newEnvelopeDecoded
    [("body", .str "new")] ⟨TextMessage, textMessage "old" "m.text" "" ""⟩ rfl rfl rfl
    (by intro s h; simp [member] at h) rfl

end Gomatrix
